import Mathlib

/-!
Odin: the readiness monitor of `electron/main.js` and the streaming consumer
of `ChatPage.jsx`.

A shallow embedding of the host-side readiness polling of `electron/main.js`
and of the question-answering branch of `onSend` in
`electron/renderer/src/components/ChatPage.jsx`, followed by the theorems
that settle the specification's claims about them.

JavaScript strings are modelled as lists of characters, JSON values by the
inductive type `Json`, and asynchronous functions by state-passing functions
whose extra argument is the outcome of the awaited operation.
-/

namespace Odin

/-! ## JavaScript values -/

/-- A JavaScript string, as the list of its characters. -/
abbrev JsString := List Char

/-- A value produced by `JSON.parse` (numbers are restricted to integers). -/
inductive Json where
  | null : Json
  | bool (b : Bool) : Json
  | num (n : Int) : Json
  | str (s : JsString) : Json
  | arr (items : List Json) : Json
  | obj (fields : List (String × Json)) : Json

namespace Json

/-- JavaScript truthiness of a JSON value: `null`, `false`, `0` and the empty
string are falsy, every other value (arrays and objects included) is truthy. -/
def truthy : Json → Bool
  | null => false
  | bool b => b
  | num n => n != 0
  | str s => !s.isEmpty
  | arr _ => true
  | obj _ => true

/-- The value of a key in a parsed object; the last occurrence of a duplicated
key wins, as in `JSON.parse`. -/
def lookup (key : String) : List (String × Json) → Option Json
  | [] => none
  | (k, v) :: rest =>
    match lookup key rest with
    | some w => some w
    | none => if k = key then some v else none

/-- Property access `data.key` on a non-null JSON value: the field of an
object, `undefined` (here `none`) for every other value. -/
def getField (key : String) : Json → Option Json
  | obj fields => lookup key fields
  | _ => none

end Json

/-- Truthiness of a possibly `undefined` value. -/
def truthyOpt : Option Json → Bool
  | none => false
  | some v => v.truthy

/-! ## electron/main.js: readiness polling -/

/-- The condition of the `mainWindow` variable: `null`, a window that is open,
or a window object that has been closed, whose `webContents` access throws. -/
inductive Window where
  | absent
  | live
  | destroyed
  deriving DecidableEq

/-- The payload of a `backend-health` message. -/
structure HealthMessage where
  ready : Bool
  details : Json

/-- The module state of `main.js` that the readiness monitor touches, with the
timers that are scheduled, the messages delivered through
`mainWindow.webContents.send` and the number of `GET /health` requests issued. -/
structure MainState where
  backendReady : Bool
  healthInterval : Option Nat
  activeTimers : List (Nat × Nat)
  nextTimerId : Nat
  mainWindow : Window
  sent : List HealthMessage
  healthRequests : Nat

/-- The outcome of `fetch(url)` followed by `res.json()` in
`checkBackendHealthOnce`: the request is rejected, or a response arrives with
its `res.ok` flag and its parsed body (`none` when the body is not JSON). -/
inductive Liveness where
  | rejected
  | response (ok : Bool) (body : Option Json)

/-- The value of `!!(data && data.ok)`. -/
def isReadyData (data : Json) : Bool :=
  data.truthy && truthyOpt (data.getField "ok")

/-- The body of a liveness outcome that passes the test of
`checkBackendHealthOnce`: success status, a JSON body, a truthy `ok`. -/
def Liveness.readyBody : Liveness → Option Json
  | .response true (some data) => if isReadyData data then some data else none
  | _ => none

/-- Whether a liveness outcome is a success-status response with a truthy `ok`. -/
def Liveness.isReady (r : Liveness) : Bool := r.readyBody.isSome

/-- The call `clearInterval(id)`. -/
def clearInterval (id : Nat) (s : MainState) : MainState :=
  { s with activeTimers := s.activeTimers.filter (fun t => t.1 != id) }

/-- The call `setInterval(checkBackendHealthOnce, period)`, returning the new
timer's id. -/
def setInterval (period : Nat) (s : MainState) : MainState × Nat :=
  ({ s with activeTimers := s.activeTimers ++ [(s.nextTimerId, period)],
            nextTimerId := s.nextTimerId + 1 }, s.nextTimerId)

/-- The statement `if (healthInterval) { clearInterval(healthInterval);
healthInterval = null; }`. -/
def clearHealthInterval (s : MainState) : MainState :=
  match s.healthInterval with
  | some id => { clearInterval id s with healthInterval := none }
  | none => s

/-- The synchronous start of `checkBackendHealthOnce`: the `fetch` call. -/
def issueHealthRequest (s : MainState) : MainState :=
  { s with healthRequests := s.healthRequests + 1 }

/-- The continuation of `checkBackendHealthOnce` after its two awaits, run
when the outcome `r` of the request is known; the boolean is the value the
promise resolves to. -/
def resumeHealthCheck (s : MainState) (r : Liveness) : MainState × Bool :=
  match r with
  | .rejected => (s, false)
  | .response false _ => (s, false)
  | .response true none => (s, false)
  | .response true (some data) =>
    let isReady := isReadyData data
    if isReady && !s.backendReady then
      let s1 := { s with backendReady := true }
      match s1.mainWindow with
      | .destroyed => (s1, false)
      | .live =>
        (clearHealthInterval
          { s1 with sent := s1.sent ++ [{ ready := true, details := data }] }, isReady)
      | .absent => (clearHealthInterval s1, isReady)
    else (s, isReady)

/-- One call of `checkBackendHealthOnce` whose request completes with `r`. -/
def checkBackendHealthOnce (s : MainState) (r : Liveness) : MainState × Bool :=
  resumeHealthCheck (issueHealthRequest s) r

/-- The function `startHealthPolling`; the outcome of the immediate check it
issues is processed by a later `resumeHealthCheck`, the fetch being
asynchronous. -/
def startHealthPolling (s : MainState) : MainState :=
  let s1 := { s with backendReady := false }
  let s2 := clearHealthInterval s1
  let s3 := issueHealthRequest s2
  let (s4, id) := setInterval 1000 s3
  { s4 with healthInterval := some id }

/-- The state after the outcomes `rs` have been processed one after another
by `checkBackendHealthOnce`. -/
def runChecks (s : MainState) (rs : List Liveness) : MainState :=
  rs.foldl (fun st r => (checkBackendHealthOnce st r).1) s


/-! ## The platform's `TextDecoder` (UTF-8, streaming) -/

/-- A byte of a `Uint8Array`. -/
abbrev Byte := Fin 256

/-- The state of the UTF-8 decoder of the Encoding standard: the code point
under construction, the bytes seen and needed, and the bounds for the next
continuation byte. -/
structure Utf8State where
  codePoint : Nat
  bytesSeen : Nat
  bytesNeeded : Nat
  lower : Nat
  upper : Nat

/-- The decoder state between two characters. -/
def Utf8State.fresh : Utf8State :=
  { codePoint := 0, bytesSeen := 0, bytesNeeded := 0, lower := 0x80, upper := 0xBF }

/-- The state of a `new TextDecoder()` used with `stream: true`: the state of
its UTF-8 decoder and the flag telling that the byte order mark has been
dealt with. -/
structure TextDecoder where
  utf8 : Utf8State
  bomSeen : Bool

/-- The state of a decoder on which `decode` has not been called yet. -/
def TextDecoder.fresh : TextDecoder := { utf8 := Utf8State.fresh, bomSeen := false }

/-- The handler of the UTF-8 decoder for a byte that starts a sequence
(`bytesNeeded = 0`): the new state and the code points emitted, U+FFFD
standing for an error. -/
def utf8Lead (d : Utf8State) (b : Nat) : Utf8State × List Nat :=
  if b ≤ 0x7F then (d, [b])
  else if 0xC2 ≤ b ∧ b ≤ 0xDF then
    ({ d with bytesNeeded := 1, codePoint := b % 0x20 }, [])
  else if 0xE0 ≤ b ∧ b ≤ 0xEF then
    ({ d with lower := if b = 0xE0 then 0xA0 else d.lower,
              upper := if b = 0xED then 0x9F else d.upper,
              bytesNeeded := 2, codePoint := b % 0x10 }, [])
  else if 0xF0 ≤ b ∧ b ≤ 0xF4 then
    ({ d with lower := if b = 0xF0 then 0x90 else d.lower,
              upper := if b = 0xF4 then 0x8F else d.upper,
              bytesNeeded := 3, codePoint := b % 0x08 }, [])
  else (d, [0xFFFD])

/-- The handler of the UTF-8 decoder for one byte. A byte that cannot
continue the sequence under way emits U+FFFD and is then handled again as
the start of a sequence. -/
def utf8Handler (d : Utf8State) (b : Nat) : Utf8State × List Nat :=
  if d.bytesNeeded = 0 then utf8Lead d b
  else if b < d.lower ∨ d.upper < b then
    let r := utf8Lead Utf8State.fresh b
    (r.1, 0xFFFD :: r.2)
  else
    let cp := d.codePoint * 0x40 + b % 0x40
    if d.bytesSeen + 1 ≠ d.bytesNeeded then
      ({ d with lower := 0x80, upper := 0xBF, codePoint := cp, bytesSeen := d.bytesSeen + 1 }, [])
    else (Utf8State.fresh, [cp])

/-- The UTF-8 decoder run over the bytes of one chunk, without flushing. -/
def utf8Run (d : Utf8State) : List Byte → Utf8State × List Nat
  | [] => (d, [])
  | b :: rest =>
    let r := utf8Handler d b.val
    let r2 := utf8Run r.1 rest
    (r2.1, r.2 ++ r2.2)

/-- The removal of a leading byte order mark from the decoder's output: the
first code point ever emitted is dropped when it is U+FEFF. -/
def stripBom (bomSeen : Bool) (out : List Nat) : Bool × List Nat :=
  if bomSeen then (true, out)
  else
    match out with
    | [] => (false, [])
    | c :: rest => (true, if c = 0xFEFF then rest else c :: rest)

/-- The call `decoder.decode(value, { stream: true })`: the decoder afterwards and
the text returned. -/
def TextDecoder.decode (d : TextDecoder) (value : List Byte) : TextDecoder × JsString :=
  let r := utf8Run d.utf8 value
  let r2 := stripBom d.bomSeen r.2
  ({ utf8 := r.1, bomSeen := r2.1 }, r2.2.map Char.ofNat)

/-- The UTF-8 encoding of one code point, as a server writes it. -/
def utf8EncodeChar (c : Char) : List Byte :=
  let n := c.toNat
  if n < 0x80 then [Fin.ofNat n]
  else if n < 0x800 then [Fin.ofNat (0xC0 + n / 0x40), Fin.ofNat (0x80 + n % 0x40)]
  else if n < 0x10000 then
    [Fin.ofNat (0xE0 + n / 0x1000), Fin.ofNat (0x80 + n / 0x40 % 0x40),
      Fin.ofNat (0x80 + n % 0x40)]
  else
    [Fin.ofNat (0xF0 + n / 0x40000), Fin.ofNat (0x80 + n / 0x1000 % 0x40),
      Fin.ofNat (0x80 + n / 0x40 % 0x40), Fin.ofNat (0x80 + n % 0x40)]

/-- The UTF-8 encoding of a text. -/
def utf8Encode (s : JsString) : List Byte := s.flatMap utf8EncodeChar

/-! ## String operations used by `onSend` -/

/-- The test `s.startsWith(pre)`. -/
def startsWith (pre : JsString) (s : JsString) : Bool :=
  match pre, s with
  | [], _ => true
  | _ :: _, [] => false
  | p :: ps, c :: cs => p == c && startsWith ps cs

/-- The test `s.includes(pat)`. -/
def includes (pat : JsString) : JsString → Bool
  | [] => pat.isEmpty
  | c :: rest => startsWith pat (c :: rest) || includes pat rest

/-- The character `c` put in front of the first piece of a split. -/
def consHead (c : Char) : List JsString → List JsString
  | [] => [[c]]
  | p :: ps => (c :: p) :: ps

/-- The call `s.split('\n\n')`: the pieces of `s` between successive
occurrences of a blank-line delimiter, found from left to right. -/
def splitBlank : JsString → List JsString
  | [] => [[]]
  | [c] => [[c]]
  | c :: d :: rest =>
    if c = '\n' ∧ d = '\n' then [] :: splitBlank rest
    else consHead c (splitBlank (d :: rest))

/-- The call `s.split('\n')`. -/
def splitLines : JsString → List JsString
  | [] => [[]]
  | c :: rest =>
    if c = '\n' then [] :: splitLines rest
    else consHead c (splitLines rest)

/-- The call `lines.join('\n')`. -/
def joinLines (lines : List JsString) : JsString := List.intercalate ['\n'] lines



/-! ## ChatPage.jsx: messages and the streaming loop of `onSend` -/

mutual
/-- The string conversion that `+` applies to a JSON value joined with a string. -/
def Json.toJsString : Json → JsString
  | .null => "null".toList
  | .bool true => "true".toList
  | .bool false => "false".toList
  | .num n => (toString n).toList
  | .str s => s
  | .arr items => Json.joinItems items
  | .obj _ => "[object Object]".toList
/-- The call `items.join(',')` of an array's string conversion, in which `null`
items give the empty string. -/
def Json.joinItems : List Json → JsString
  | [] => []
  | [.null] => []
  | [x] => Json.toJsString x
  | .null :: rest => ',' :: Json.joinItems rest
  | x :: rest => Json.toJsString x ++ ',' :: Json.joinItems rest
end

mutual
/-- Whether React accepts a JSON value as a child of an element: strings,
numbers, booleans, `null` and arrays of such values are accepted; for an
object, also inside an array, rendering throws. -/
def Json.renderable : Json → Bool
  | .null => true
  | .bool _ => true
  | .num _ => true
  | .str _ => true
  | .arr items => Json.allRenderable items
  | .obj _ => false
/-- Whether every item of an array is accepted as a child. -/
def Json.allRenderable : List Json → Bool
  | [] => true
  | x :: rest => Json.renderable x && Json.allRenderable rest
end

/-- An entry of the `messages` state: a field that the object does not have
is `none`. -/
structure Msg where
  type : String
  who : Option String
  text : Option Json
  total : Option Nat
  qaMode : Option Bool

/-- The object `{ type: 'text', who, text }`. -/
def textMsg (who : String) (text : JsString) : Msg :=
  { type := "text", who := some who, text := some (.str text), total := none, qaMode := none }

/-- The object `{ type: 'actions', total, qaMode: true }`. -/
def actionsMsg (total : Nat) : Msg :=
  { type := "actions", who := none, text := none, total := some total, qaMode := some true }

/-- The thinking placeholder `'생각 중…'`. -/
def thinking : JsString := "생각 중…".toList

/-- The no-response marker `'(응답 없음)'`. -/
def noResponse : JsString := "(응답 없음)".toList

/-- The array `prev.map((m, i) => i === target ? f(m) : m)` for a target
counted from the head of the list. -/
def mapAt (f : Msg → Msg) : Nat → List Msg → List Msg
  | _, [] => []
  | 0, m :: ms => f m :: ms
  | i + 1, m :: ms => m :: mapAt f i ms

/-- The array `prev.map((m, i) => i === targetIndex ? f(m) : m)` for the value
of `assistantIndexRef.current`, which is `-1` before any turn. -/
def updateAt (targetIndex : Int) (f : Msg → Msg) (msgs : List Msg) : List Msg :=
  if targetIndex < 0 then msgs else mapAt f targetIndex.toNat msgs

/-- The value `m.text || ''`. -/
def textOrEmpty (m : Msg) : Json :=
  match m.text with
  | some v => if v.truthy then v else .str []
  | none => .str []

/-- The test `base === '생각 중…'`. -/
def isThinking : Json → Bool
  | .str s => s == thinking
  | _ => false

/-- The object `{ ...m, text: nextText }` of lines 175-177, where `nextText`
is the payload when the slot shows the placeholder and the slot's text
followed by the payload otherwise. -/
def applyPayload (text : JsString) (m : Msg) : Msg :=
  let base := textOrEmpty m
  let nextText := if isThinking base then text else base.toJsString ++ text
  { m with text := some (.str nextText) }

/-- The local variables of the streaming branch, and a record of the `text`
computed for each frame in the order the frames were parsed. -/
structure StreamLocals where
  decoder : TextDecoder
  acc : JsString
  gotAny : Bool
  done : Bool
  payloads : List JsString

/-- The locals as line 155-158 initialise them. -/
def StreamLocals.init : StreamLocals :=
  { decoder := TextDecoder.fresh, acc := [], gotAny := false, done := false, payloads := [] }

/-- The array `ev.split('\n').filter(Boolean)`. -/
def frameLines (ev : JsString) : List JsString :=
  (splitLines ev).filter (fun l => !l.isEmpty)

/-- The test `lines.some(l => l.startsWith('event: done'))` for a frame. -/
def frameDone (ev : JsString) : Bool :=
  (frameLines ev).any (startsWith "event: done".toList)

/-- The `text` of a frame: its lines starting with `'data: '`, each without
its first six characters, joined by newlines. -/
def framePayload (ev : JsString) : JsString :=
  joinLines (((frameLines ev).filter (startsWith "data: ".toList)).map (List.drop 6))

/-- The body of `for (const ev of parts)` (lines 165-180) for one frame, on the
locals and the `messages` state; `targetIndex` is the value read from
`assistantIndexRef.current`, which a turn sets once, before its request. -/
def processFrame (targetIndex : Int) (st : StreamLocals × List Msg) (ev : JsString) :
    StreamLocals × List Msg :=
  let loc := { st.1 with done := if frameDone ev then true else st.1.done }
  let text := framePayload ev
  let loc := { loc with payloads := loc.payloads ++ [text] }
  if text.isEmpty then (loc, st.2)
  else ({ loc with gotAny := true }, updateAt targetIndex (applyPayload text) st.2)

/-- One iteration of the `while (true)` loop (lines 161-181) for a read that
delivered the chunk `value`. -/
def readChunk (targetIndex : Int) (st : StreamLocals × List Msg) (value : List Byte) :
    StreamLocals × List Msg :=
  let r := st.1.decoder.decode value
  let acc := st.1.acc ++ r.2
  let parts := splitBlank acc
  let loc := { st.1 with decoder := r.1, acc := parts.getLast?.getD [] }
  parts.dropLast.foldl (processFrame targetIndex) (loc, st.2)

/-- The read loop for the chunks that `reader.read()` delivers before it
reports `done`. -/
def readLoop (targetIndex : Int) (st : StreamLocals × List Msg) (reads : List (List Byte)) :
    StreamLocals × List Msg :=
  reads.foldl (readChunk targetIndex) st


/-! ## ChatPage.jsx: the question-answering branch of `onSend` -/

/-- A request issued through `fetch(api(...))`: the streaming
`GET /qa/stream?base_path=..&q=..` or the non-streaming `POST /qa` with JSON
body `base_path`, `question`. -/
inductive Request where
  | getStream (basePath q : JsString)
  | postQa (basePath question : JsString)
  deriving DecidableEq

/-- How the body of an event-stream response stops delivering chunks: the
stream closes, the watchdog calls `reader.cancel()` (in both cases
`reader.read()` resolves with `done: true`), or a read is rejected. -/
inductive StreamEnd where
  | closed
  | cancelled
  | failed
  deriving DecidableEq

/-- The outcome of the streaming request: the fetch is rejected, or a
response arrives with its `ok` flag, its `content-type` header (`none` when
absent), the chunks its body delivers to successive reads and the way the
body ends. -/
inductive StreamOutcome where
  | rejected
  | response (ok : Bool) (contentType : Option JsString) (reads : List (List Byte))
      (ending : StreamEnd)

/-- The outcome of the `POST /qa` request followed by `res.json()`: the fetch is
rejected, or a response arrives whose body parses to a JSON value (`none`
when it is not valid JSON). -/
inductive FallbackOutcome where
  | rejected
  | response (body : Option Json)

/-- A call `pushToast(msg, type)`. -/
structure Toast where
  msg : JsString
  type : String
  deriving DecidableEq

/-- The state of the chat page that the question-answering branch touches,
with the toasts pushed and the requests issued so far; `renderError` records
that a state updater threw while React applied it, or that rendering the
messages after an update threw. -/
structure ChatState where
  messages : List Msg
  assistantIndex : Int
  loading : Bool
  loadingText : JsString
  toasts : List Toast
  requests : List Request
  renderError : Bool

/-- The `catch (e)` block of the question-answering branch (lines 211-214). -/
def catchQA (st : ChatState) : ChatState :=
  { st with loading := false,
            toasts := st.toasts ++ [{ msg := "네트워크 오류: QA 실패".toList, type := "error" }] }

/-- The value `data.answer || '(응답 없음)'`; `none` when `data` is `null`, for
which the property access throws. -/
def answerOrMarker : Json → Option Json
  | .null => none
  | data =>
    match data.getField "answer" with
    | some v => if v.truthy then some v else some (.str noResponse)
    | none => some (.str noResponse)

/-- The update `setMessages(prev => [...prev, actions])` that ends a turn. -/
def appendActions (qaFilesLength : Nat) (st : ChatState) : ChatState :=
  { st with messages := st.messages ++ [actionsMsg qaFilesLength] }

/-- Whether the element of line 326 (or of lines 308-323 for an `actions`
message) can be rendered for a message: the `text` of a message that is not
an `actions` message must be accepted as a child. -/
def Msg.renders (m : Msg) : Bool :=
  m.type == "actions" ||
    (match m.text with
     | none => true
     | some t => t.renderable)

/-- Whether the message at `assistantIndexRef.current`, if there is one, can be
rendered. -/
def slotRenders (msgs : List Msg) (targetIndex : Int) : Bool :=
  if targetIndex < 0 then true
  else
    match msgs.get? targetIndex.toNat with
    | none => true
    | some m => m.renders

/-- The update of lines 188 and 202 and the render that follows it: the slot
at `assistantIndexRef.current` receives the fallback text; the updater throws
when `data` is `null` (`none`); and a text that React cannot render, an object
or an array holding one, makes the render of the slot throw, which
`renderError` records. -/
def applyAnswer (data : Json) (st : ChatState) : Option ChatState :=
  match answerOrMarker data with
  | none => none
  | some t =>
    some { st with
      messages := updateAt st.assistantIndex (fun m => { m with text := some t }) st.messages,
      renderError := st.renderError ||
        !slotRenders
          (updateAt st.assistantIndex (fun m => { m with text := some t }) st.messages)
          st.assistantIndex }

/-- The fallback of lines 185-188, after an event stream that gave nothing. -/
def fallbackAfterStream (basePath q : JsString) (qaFilesLength : Nat) (st : ChatState)
    (fallback : FallbackOutcome) : ChatState :=
  let st := { st with requests := st.requests ++ [.postQa basePath q] }
  match fallback with
  | .rejected => catchQA st
  | .response none => catchQA st
  | .response (some data) =>
    match applyAnswer data st with
    | none => { st with renderError := true }
    | some st2 => appendActions qaFilesLength st2

/-- The branch `// Non-SSE: QA API call` of lines 198-209. -/
def nonSseBranch (basePath q : JsString) (qaFilesLength : Nat) (st : ChatState)
    (fallback : FallbackOutcome) : ChatState :=
  let st := { st with requests := st.requests ++ [.postQa basePath q] }
  match fallback with
  | .rejected => catchQA st
  | .response none => catchQA st
  | .response (some data) =>
    let st := { st with loading := false }
    match applyAnswer data st with
    | none => { st with renderError := true }
    | some st2 => appendActions qaFilesLength st2

/-- The test of line 152 on the response's status and declared content type. -/
def isEventStream (ok : Bool) (contentType : Option JsString) : Bool :=
  ok && includes "text/event-stream".toList (contentType.getD [])

/-- The state after the two initial updates of a turn (lines 137-147): the
user message and the thinking placeholder are appended and the placeholder's
index is recorded. -/
def beginTurn (q : JsString) (st : ChatState) : ChatState :=
  let st := { st with messages := st.messages ++ [textMsg "user" q] }
  let st := { st with assistantIndex := (st.messages.length : Int),
                      messages := st.messages ++ [textMsg "assistant" thinking] }
  { st with loadingText := thinking, loading := true }

/-- The streaming branch of lines 153-196 for the chunks read and the way the
body ended. -/
def sseBranch (basePath q : JsString) (qaFilesLength : Nat) (st : ChatState)
    (reads : List (List Byte)) (ending : StreamEnd) (fallback : FallbackOutcome) : ChatState :=
  let st := { st with loading := false }
  let r := readLoop st.assistantIndex (StreamLocals.init, st.messages) reads
  let st := { st with messages := r.2 }
  match ending with
  | .failed => catchQA st
  | _ =>
    if !r.1.gotAny && !r.1.done then fallbackAfterStream basePath q qaFilesLength st fallback
    else appendActions qaFilesLength st

/-- The branch `if (hasQA)` of `onSend` (lines 135-214) for the trimmed input
`q`, given the outcome of the streaming request and the outcome the fallback
request has if it is issued. -/
def onSendQA (basePath q : JsString) (qaFilesLength : Nat) (st : ChatState)
    (stream : StreamOutcome) (fallback : FallbackOutcome) : ChatState :=
  let st := beginTurn q st
  let st := { st with requests := st.requests ++ [.getStream basePath q] }
  match stream with
  | .rejected => catchQA st
  | .response ok contentType reads ending =>
    if isEventStream ok contentType then
      sseBranch basePath q qaFilesLength st reads ending fallback
    else nonSseBranch basePath q qaFilesLength st fallback

/-- The text of the message at an index, when that message has one. -/
def slotText (msgs : List Msg) (i : Nat) : Option Json :=
  match msgs.get? i with
  | some m => m.text
  | none => none

/-- The chat page as it is mounted, with the greeting message. -/
def initialChatState : ChatState :=
  { messages := [textMsg "assistant" "키워드 기반 검색 요청을 해주세요".toList],
    assistantIndex := -1, loading := false, loadingText := "로딩 중...".toList,
    toasts := [], requests := [], renderError := false }

/-- The complete frames of an event stream: the pieces of the decoded body
that are followed by a blank-line delimiter. -/
def streamFrames (reads : List (List Byte)) : List JsString :=
  (splitBlank (TextDecoder.fresh.decode reads.flatten).2).dropLast

/-- Whether no frame of the stream has a non-empty payload and no frame has a
line starting with the terminal marker. -/
def streamSilent (reads : List (List Byte)) : Bool :=
  (streamFrames reads).all (fun f => (framePayload f).isEmpty && !frameDone f)

/-- The non-empty payloads of the complete frames of a stream, in order: the
texts that the loop applies to the slot. -/
def streamPayloads (reads : List (List Byte)) : List JsString :=
  ((streamFrames reads).map framePayload).filter (fun p => !p.isEmpty)

/-- The message list when the read loop of a turn has ended. -/
def messagesAfterStream (q : JsString) (st : ChatState) (reads : List (List Byte)) : List Msg :=
  (readLoop (beginTurn q st).assistantIndex (StreamLocals.init, (beginTurn q st).messages)
    reads).2

/-! ## electron/main.js: the supervised process and the host handlers -/

/-- A file path, as the list of its components. -/
abbrev Path := List String

/-- The call `path.join(base, ...segments)` for a normalised `base` and plain
component names. -/
def pathJoin (base : Path) (segments : List String) : Path := base ++ segments

/-- An object whose values are strings, such as `process.env`: the first
binding of a key is its value. -/
abbrev Env := List (String × String)

/-- The property access `env[key]`, `none` standing for `undefined`. -/
def envGet (env : Env) (key : String) : Option String := List.lookup key env

/-- The value `value || fallback` for a string or `undefined` value. -/
def orDefault (value : Option String) (fallback : String) : String :=
  match value with
  | some v => if v = "" then fallback else v
  | none => fallback

/-- The constant `BACKEND_PORT` of line 14 of `main.js`. -/
def BACKEND_PORT (env : Env) : String := orDefault (envGet env "BACKEND_PORT") "8765"

/-- What the host process reads from its platform: `process.env`,
`app.isPackaged`, `process.platform`, `__dirname` and
`process.resourcesPath`. -/
structure HostEnv where
  env : Env
  isPackaged : Bool
  platform : String
  dirname : Path
  resourcesPath : Path

/-- The truthiness of `isDev` (line 19): `RENDERER_URL` is set and not empty,
or the application is not packaged. -/
def isDev (cfg : HostEnv) : Bool :=
  (match envGet cfg.env "RENDERER_URL" with
   | some v => v != ""
   | none => false) || !cfg.isPackaged

/-- The arguments of the `spawn` call of line 56. -/
structure SpawnCall where
  command : Path
  args : List Path
  cwd : Path
  env : Env
  stdio : List String
  deriving DecidableEq

/-- The object literal passed as `env` to `spawn` (lines 57-66): `process.env`
spread, then the six overrides. -/
def childEnv (env : Env) : Env :=
  [("PORT", BACKEND_PORT env), ("PYTHONIOENCODING", "utf-8"), ("PYTHONUTF8", "1"),
   ("PYTHONLEGACYWINDOWSSTDIO", "0"), ("LANG", "ko_KR.UTF-8"), ("LC_ALL", "ko_KR.UTF-8")] ++ env

/-- The command resolution of `startPythonBackend` (lines 19-69): the
arguments with which `spawn` is called. -/
def backendSpawnCall (cfg : HostEnv) : SpawnCall :=
  if isDev cfg then
    let projectRoot := cfg.dirname.dropLast
    let venvPath := pathJoin projectRoot [".venv_odin"]
    let pythonExe :=
      if cfg.platform = "win32" then pathJoin venvPath ["Scripts", "python.exe"]
      else pathJoin venvPath ["bin", "python"]
    let scriptPath := pathJoin projectRoot ["backend", "server.py"]
    { command := pythonExe, args := [scriptPath], cwd := projectRoot,
      env := childEnv cfg.env, stdio := ["ignore", "pipe", "pipe"] }
  else
    let pythonDistPath := pathJoin cfg.resourcesPath ["python-dist"]
    let executableName := if cfg.platform = "win32" then "odin-backend.exe" else "odin-backend"
    let executablePath := pathJoin pythonDistPath [executableName]
    { command := executablePath, args := [], cwd := pythonDistPath,
      env := childEnv cfg.env, stdio := ["ignore", "pipe", "pipe"] }

/-- What the platform's `spawn` does with the call: the child starts; the
call returns a child object and the failure arrives later as the child's
`error` event (as Node reports a missing or non-executable file); or the call
throws. -/
inductive SpawnOutcome where
  | started
  | errorEvent
  | threw
  deriving DecidableEq

/-- The module state of `main.js`: the readiness state, the variable `pyProc`
(the call that created the child object, `none` for `null`), the events of
`pyProc` that have a listener, the number of `pyProc.kill()` calls made and
the channels registered with `ipcMain.handle`. -/
structure HostState where
  main : MainState
  pyProc : Option SpawnCall
  pyProcListeners : List String
  killCalls : Nat
  ipcHandlers : List String

/-- The function `startPythonBackend`; `none` when the exception thrown by
`spawn` leaves the function. -/
def startPythonBackend (cfg : HostEnv) (h : HostState) (spawn : SpawnOutcome) :
    Option HostState :=
  match spawn with
  | .threw => none
  | _ => some { h with pyProc := some (backendSpawnCall cfg), pyProcListeners := ["exit"] }

/-- The assignment of `createWindow` to `mainWindow` (the window's menu,
developer tools and content are not modelled). -/
def createWindow (h : HostState) : HostState :=
  { h with main := { h.main with mainWindow := .live } }

/-- The handler of `app.on('ready')` (lines 181-239); `none` when an exception
leaves the handler. -/
def onReady (cfg : HostEnv) (h : HostState) (spawn : SpawnOutcome) : Option HostState :=
  match startPythonBackend cfg h spawn with
  | none => none
  | some h1 =>
    let h2 := createWindow h1
    let h3 := { h2 with main := startHealthPolling h2.main }
    some { h3 with ipcHandlers := h3.ipcHandlers ++
      ["select-directory", "get-backend-health", "open-file-location", "get-font-path"] }

/-- The value returned to the renderer by the `get-backend-health` handler. -/
structure Readiness where
  ready : Bool
  deriving DecidableEq

/-- The handler of `get-backend-health` (lines 190-193): the state afterwards
and the value returned. -/
def getBackendHealth (s : MainState) : MainState × Readiness :=
  (s, { ready := s.backendReady })

/-- The handler of `app.on('before-quit')` (lines 247-252). -/
def beforeQuit (h : HostState) : HostState :=
  let h1 := match h.pyProc with
    | some _ => { h with killCalls := h.killCalls + 1 }
    | none => h
  match h1.main.healthInterval with
  | some id => { h1 with main := clearInterval id h1.main }
  | none => h1

/-- The liveness URL of line 153. -/
def healthUrl (env : Env) : String := "http://127.0.0.1:" ++ BACKEND_PORT env ++ "/health"

/-- The function `backendPort` that `preload.cjs` exposes as `window.odin.backendPort`. -/
def backendPort (env : Env) : String := orDefault (envGet env "BACKEND_PORT") "8765"

/-- The constant `port` of `App.jsx` (line 8): `odinPort` is the value of
`window.odin.backendPort()`, `none` when `window.odin` is missing. -/
def appPort (odinPort : Option String) : String := orDefault odinPort "8765"

/-- The helper `api` of `App.jsx` (line 9) for the value of its `port`. -/
def api (port : String) (p : String) : String := "http://127.0.0.1:" ++ port ++ p

/-- The `port` of `App.jsx` in a renderer whose `window.odin` is the object
exposed by the preload script, in a process with environment `env`. -/
def rendererPort (env : Env) : String := appPort (some (backendPort env))

/-- The timers scheduled are at most the one held in `healthInterval`, whose
id has been handed out by `setInterval`. -/
def TimersOwned (s : MainState) : Prop :=
  match s.activeTimers with
  | [] => True
  | [t] => s.healthInterval = some t.1 ∧ t.1 < s.nextTimerId
  | _ => False

/-- What the host does with the readiness monitor: a call of
`startHealthPolling`, a liveness check completing with an outcome, or a pull
query. -/
inductive MainOp where
  | start
  | check (r : Liveness)
  | pull

/-- The module state after one operation. -/
def applyOp (s : MainState) : MainOp → MainState
  | .start => startHealthPolling s
  | .check r => (checkBackendHealthOnce s r).1
  | .pull => (getBackendHealth s).1

/-- The module state after a sequence of operations. -/
def runOps (s : MainState) (ops : List MainOp) : MainState := ops.foldl applyOp s

/-- The module state of `main.js` at load. -/
def initialHostState : HostState :=
  { main := { backendReady := false, healthInterval := none, activeTimers := [],
              nextTimerId := 0, mainWindow := .absent, sent := [], healthRequests := 0 },
    pyProc := none, pyProcListeners := [], killCalls := 0, ipcHandlers := [] }

/-- The payload of a frame in the specification's words: the frame's lines
that begin with the data marker, each without the marker's six characters, in
their order, joined by newlines. -/
def specFramePayload (ev : JsString) : JsString :=
  joinLines (((splitLines ev).filter (startsWith "data: ".toList)).map (List.drop 6))

/-- The terminated flag in the specification's words: some line of some frame
begins with the terminal marker. -/
def specTerminated (frames : List JsString) : Bool :=
  frames.any (fun f => (splitLines f).any (startsWith "event: done".toList))

/-! ## Sample states and responses -/

/-- The bytes of a stream of two frames, `data: 안` and `data: 녕`, each ended
by a blank line. -/
def sampleStream : List Byte := utf8Encode "data: 안\n\ndata: 녕\n\n".toList

/-- The sample stream cut inside its first three-byte character and between
the two newlines of its first delimiter. -/
def sampleReads : List (List Byte) :=
  [sampleStream.take 7, (sampleStream.drop 7).take 3, sampleStream.drop 10]

/-- The module state of `main.js` at load, before the window is created. -/
def initialMainState : MainState :=
  { backendReady := false, healthInterval := none, activeTimers := [], nextTimerId := 0,
    mainWindow := .absent, sent := [], healthRequests := 0 }

/-- The module state once `createWindow` has run. -/
def windowOpenState : MainState := { initialMainState with mainWindow := .live }

/-- The module state when the window object has been closed by the user. -/
def windowClosedState : MainState := { initialMainState with mainWindow := .destroyed }

/-- The parsed body of a health response with the given `ok` field. -/
def healthBody (ok : Bool) : Json := .obj [("ok", .bool ok)]

/-- A success-status health response with the given `ok` field. -/
def healthResponse (ok : Bool) : Liveness := .response true (some (healthBody ok))

/-- The stream of the two frames `data: 생각 중…` and `data: x`. -/
def collidingStream : List Byte := utf8Encode "data: 생각 중…\n\ndata: x\n\n".toList

/-- The message list at the start of the streaming loop for a first turn with
question `q`: greeting, user message, thinking placeholder at index 2. -/
def turnMessages : List Msg := (beginTurn "q".toList initialChatState).messages

/-- The header value of an event-stream response. -/
def eventStreamType : Option JsString := some "text/event-stream; charset=utf-8".toList

/-- The header value of Scenario C. -/
def plainType : Option JsString := some "text/plain".toList

/-- The parsed fallback body with `answer` equal to the string `42`. -/
def answer42 : Json := .obj [("answer", .str "42".toList)]

/-- The toast of the `catch` block. -/
def qaErrorToast : Toast := { msg := "네트워크 오류: QA 실패".toList, type := "error" }

/-- A packaged installation on Linux with no `BACKEND_PORT` set. -/
def packagedLinux : HostEnv :=
  { env := [("HOME", "/home/odin")], isPackaged := true, platform := "linux",
    dirname := ["opt", "odin", "resources", "app"], resourcesPath := ["opt", "odin", "resources"] }

/-- The host state after the `ready` handler has run with a backend that
started. -/
def runningHostState : HostState :=
  (onReady packagedLinux initialHostState .started).getD initialHostState

/-- Liveness outcomes of every kind that is not a ready response: a rejected
request, a non-success status, a body that is not JSON, a body with `ok:false`
and a body without `ok`. -/
def failedOutcomes : List Liveness :=
  [.rejected, .response false (some (healthBody true)), .response true none,
   healthResponse false, .response true (some (.obj []))]

/-- A stream whose first frame mixes data lines with other lines and whose
second frame carries the terminal marker. -/
def mixedStream : List Byte :=
  utf8Encode "id: 1\ndata: a\n: note\ndata: b\n\nevent: done\n\n".toList

/-- Two messages agree in every field other than `text`. -/
def Msg.sameButText (a b : Msg) : Prop :=
  a.type = b.type ∧ a.who = b.who ∧ a.total = b.total ∧ a.qaMode = b.qaMode

/-- The parsed fallback body whose `answer` is the empty string. -/
def emptyAnswer : Json := .obj [("answer", .str [])]

/-- The parsed fallback body whose `answer` is an object. -/
def objectAnswer : Json := .obj [("answer", .obj [("text", .str "hi".toList)])]

/-- A development checkout on Windows, with `BACKEND_PORT` and a `PORT` of its
own in the environment. -/
def devWindows : HostEnv :=
  { env := [("BACKEND_PORT", "9000"), ("PORT", "80"), ("PATH", "C:/bin")], isPackaged := false,
    platform := "win32", dirname := ["C:", "odin", "electron"],
    resourcesPath := ["C:", "odin", "resources"] }

/-- The names of the six environment variables that the supervisor overrides. -/
def overriddenKeys : List String :=
  ["PORT", "PYTHONIOENCODING", "PYTHONUTF8", "PYTHONLEGACYWINDOWSSTDIO", "LANG", "LC_ALL"]

/-- A stream whose only frame is the terminal marker. -/
def doneOnlyStream : List Byte := utf8Encode "event: done\n\n".toList

/-- A stream that consists of `data: x` without a blank line after it. -/
def unterminatedStream : List Byte := utf8Encode "data: x".toList

/-- A last read that carries `data: lost` without a blank line after it. -/
def lostTail : List Byte := utf8Encode "data: lost".toList

/-! ## Theorems: readiness polling -/

theorem readyBody_of_isReady_false {r : Liveness} (h : r.isReady = false) :
    r.readyBody = none := by
  unfold Liveness.isReady at h
  cases hb : r.readyBody with
  | none => rfl
  | some d => simp [hb] at h

theorem resume_of_not_ready (s : MainState) {r : Liveness} (h : r.isReady = false) :
    resumeHealthCheck s r = (s, false) := by
  have hb := readyBody_of_isReady_false h
  match r, hb with
  | .rejected, _ => rfl
  | .response false _, _ => rfl
  | .response true none, _ => rfl
  | .response true (some data), hb =>
    have hd : isReadyData data = false := by
      cases hd : isReadyData data with
      | false => rfl
      | true => simp [Liveness.readyBody, hd] at hb
    simp [resumeHealthCheck, hd]

theorem resume_of_backendReady (s : MainState) (r : Liveness) (h : s.backendReady = true) :
    resumeHealthCheck s r = (s, r.isReady) := by
  match r with
  | .rejected => rfl
  | .response false _ => rfl
  | .response true none => rfl
  | .response true (some data) =>
    cases hd : isReadyData data <;>
      simp [resumeHealthCheck, h, hd, Liveness.isReady, Liveness.readyBody]

theorem resume_of_ready (s : MainState) {r : Liveness} {d : Json} (hr : r.readyBody = some d)
    (h : s.backendReady = false) :
    resumeHealthCheck s r =
      match s.mainWindow with
      | .destroyed => ({ s with backendReady := true }, false)
      | .live =>
        (clearHealthInterval
          { s with backendReady := true,
                   sent := s.sent ++ [{ ready := true, details := d }] }, true)
      | .absent => (clearHealthInterval { s with backendReady := true }, true) := by
  match r, hr with
  | .response true (some data), hr =>
    have hd : isReadyData data = true := by
      cases hd : isReadyData data with
      | true => rfl
      | false => simp [Liveness.readyBody, hd] at hr
    have hdd : data = d := by
      simpa [Liveness.readyBody, hd] using hr
    subst hdd
    cases hw : s.mainWindow <;> simp [resumeHealthCheck, hd, h, hw]

theorem runChecks_append (s : MainState) (xs ys : List Liveness) :
    runChecks s (xs ++ ys) = runChecks (runChecks s xs) ys := by
  simp [runChecks, List.foldl_append]

theorem runChecks_not_ready (s : MainState) (rs : List Liveness)
    (h : ∀ x ∈ rs, x.isReady = false) :
    runChecks s rs = { s with healthRequests := s.healthRequests + rs.length } := by
  induction rs generalizing s with
  | nil => rfl
  | cons r rest ih =>
    have hr : r.isReady = false := h r (List.mem_cons_self _ _)
    have hrest : ∀ x ∈ rest, x.isReady = false := fun x hx => h x (List.mem_cons_of_mem _ hx)
    show runChecks (checkBackendHealthOnce s r).1 rest = _
    rw [checkBackendHealthOnce, resume_of_not_ready _ hr, ih _ hrest]
    simp [issueHealthRequest, Nat.add_assoc, Nat.add_comm 1]

theorem runChecks_backendReady (s : MainState) (rs : List Liveness)
    (h : s.backendReady = true) :
    runChecks s rs = { s with healthRequests := s.healthRequests + rs.length } := by
  induction rs generalizing s with
  | nil => rfl
  | cons r rest ih =>
    show runChecks (checkBackendHealthOnce s r).1 rest = _
    rw [checkBackendHealthOnce, resume_of_backendReady _ _ (by simpa [issueHealthRequest] using h),
      ih _ (by simpa [issueHealthRequest] using h)]
    simp [issueHealthRequest, Nat.add_assoc, Nat.add_comm 1]

theorem startHealthPolling_backendReady (s : MainState) :
    (startHealthPolling s).backendReady = false := by
  simp only [startHealthPolling, setInterval, issueHealthRequest, clearHealthInterval,
    clearInterval]
  cases s.healthInterval <;> rfl

theorem startHealthPolling_sent (s : MainState) :
    (startHealthPolling s).sent = s.sent := by
  simp only [startHealthPolling, setInterval, issueHealthRequest, clearHealthInterval,
    clearInterval]
  cases s.healthInterval <;> rfl

theorem startHealthPolling_mainWindow (s : MainState) :
    (startHealthPolling s).mainWindow = s.mainWindow := by
  simp only [startHealthPolling, setInterval, issueHealthRequest, clearHealthInterval,
    clearInterval]
  cases s.healthInterval <;> rfl

theorem clearHealthInterval_sent (s : MainState) : (clearHealthInterval s).sent = s.sent := by
  unfold clearHealthInterval clearInterval
  cases s.healthInterval <;> rfl

theorem clearHealthInterval_backendReady (s : MainState) :
    (clearHealthInterval s).backendReady = s.backendReady := by
  unfold clearHealthInterval clearInterval
  cases s.healthInterval <;> rfl

theorem clearHealthInterval_healthInterval (s : MainState) :
    (clearHealthInterval s).healthInterval = none := by
  unfold clearHealthInterval clearInterval
  cases h : s.healthInterval <;> simp [h]

theorem first_ready_split (rs : List Liveness) (h : ¬ ∀ x ∈ rs, x.isReady = false) :
    ∃ pre r post, rs = pre ++ r :: post ∧ (∀ x ∈ pre, x.isReady = false) ∧
      r.isReady = true := by
  induction rs with
  | nil => exact absurd (by simp) h
  | cons a rest ih =>
    cases ha : a.isReady with
    | true => exact ⟨[], a, rest, rfl, by simp, ha⟩
    | false =>
      have hrest : ¬ ∀ x ∈ rest, x.isReady = false := by
        intro hall
        apply h
        intro x hx
        rcases List.mem_cons.mp hx with rfl | hx
        · exact ha
        · exact hall x hx
      obtain ⟨pre, r, post, hrs, hpre, hr⟩ := ih hrest
      refine ⟨a :: pre, r, post, by simp [hrs], ?_, hr⟩
      intro x hx
      rcases List.mem_cons.mp hx with rfl | hx
      · exact ha
      · exact hpre x hx

/-- The first ready response, processed with an open window and
`backendReady = false`, delivers exactly its own message and sets the flag. -/
theorem check_first_ready (s : MainState) {r : Liveness} {d : Json}
    (hr : r.readyBody = some d) (h : s.backendReady = false) (hw : s.mainWindow = .live) :
    (checkBackendHealthOnce s r).1.sent = s.sent ++ [{ ready := true, details := d }] ∧
    (checkBackendHealthOnce s r).1.backendReady = true := by
  have h1 : (issueHealthRequest s).backendReady = false := by simpa [issueHealthRequest] using h
  have h2 : (issueHealthRequest s).mainWindow = .live := by simpa [issueHealthRequest] using hw
  rw [checkBackendHealthOnce, resume_of_ready _ hr h1]
  simp only [h2]
  refine ⟨?_, ?_⟩
  · rw [clearHealthInterval_sent]; rfl
  · rw [clearHealthInterval_backendReady]

/-- C1: for every sequence of liveness outcomes processed one after another by
`checkBackendHealthOnce` from the state left by `startHealthPolling` with an
open main window, the `backend-health` message is sent at most once in total;
nothing is sent while the outcomes before the first ready response (success
status, truthy `ok`) are processed; and processing that first ready response
sends exactly the message with `ready = true` and that response's body as
details, after which nothing more is sent. -/
theorem backend_health_sent_once (s : MainState) (hw : s.mainWindow = .live) :
    (∀ rs : List Liveness, ∃ new : List HealthMessage,
        (runChecks (startHealthPolling s) rs).sent = s.sent ++ new ∧ new.length ≤ 1) ∧
    (∀ pre : List Liveness, (∀ x ∈ pre, x.isReady = false) →
        (runChecks (startHealthPolling s) pre).sent = s.sent) ∧
    (∀ (pre : List Liveness) (r : Liveness) (d : Json) (post : List Liveness),
        (∀ x ∈ pre, x.isReady = false) → r.readyBody = some d →
        (runChecks (startHealthPolling s) (pre ++ [r])).sent
            = s.sent ++ [{ ready := true, details := d }] ∧
        (runChecks (startHealthPolling s) (pre ++ r :: post)).sent
            = s.sent ++ [{ ready := true, details := d }]) := by
  have hquiet : ∀ pre : List Liveness, (∀ x ∈ pre, x.isReady = false) →
      (runChecks (startHealthPolling s) pre).sent = s.sent := by
    intro pre hpre
    rw [runChecks_not_ready _ _ hpre]
    exact startHealthPolling_sent s
  have hfire : ∀ (pre : List Liveness) (r : Liveness) (d : Json) (post : List Liveness),
      (∀ x ∈ pre, x.isReady = false) → r.readyBody = some d →
      (runChecks (startHealthPolling s) (pre ++ [r])).sent
          = s.sent ++ [{ ready := true, details := d }] ∧
      (runChecks (startHealthPolling s) (pre ++ r :: post)).sent
          = s.sent ++ [{ ready := true, details := d }] := by
    intro pre r d post hpre hr
    have hstep := check_first_ready (runChecks (startHealthPolling s) pre) hr
      (by rw [runChecks_not_ready _ _ hpre]; exact startHealthPolling_backendReady s)
      (by rw [runChecks_not_ready _ _ hpre]; simpa [startHealthPolling_mainWindow] using hw)
    have hone : (runChecks (startHealthPolling s) (pre ++ [r])).sent
        = s.sent ++ [{ ready := true, details := d }] := by
      rw [runChecks_append]
      show (checkBackendHealthOnce (runChecks (startHealthPolling s) pre) r).1.sent = _
      rw [hstep.1, hquiet pre hpre]
    refine ⟨hone, ?_⟩
    have hsplit : pre ++ r :: post = (pre ++ [r]) ++ post := by simp
    rw [hsplit, runChecks_append, runChecks_backendReady _ post]
    · exact hone
    · rw [runChecks_append]
      exact hstep.2
  refine ⟨?_, hquiet, hfire⟩
  intro rs
  by_cases hall : ∀ x ∈ rs, x.isReady = false
  · exact ⟨[], by simpa using hquiet rs hall, by simp⟩
  · obtain ⟨pre, r, post, hrs, hpre, hr⟩ := first_ready_split rs hall
    obtain ⟨d, hd⟩ := Option.isSome_iff_exists.mp hr
    exact ⟨[{ ready := true, details := d }],
      by rw [hrs]; exact (hfire pre r d post hpre hd).2, by simp⟩

/-- Scenario A as an instance of `backend_health_sent_once`: after three
`ok:false` responses nothing has been sent, and the fourth response, `ok:true`,
sends the single message. -/
theorem backend_health_sent_once_witness :
    windowOpenState.mainWindow = .live ∧
    (runChecks (startHealthPolling windowOpenState)
        [healthResponse false, healthResponse false, healthResponse false]).sent = [] ∧
    (runChecks (startHealthPolling windowOpenState)
        [healthResponse false, healthResponse false, healthResponse false,
          healthResponse true]).sent = [{ ready := true, details := healthBody true }] :=
  ⟨rfl,
   (backend_health_sent_once windowOpenState rfl).2.1
      [healthResponse false, healthResponse false, healthResponse false]
      (by intro x hx; simp at hx; subst hx; rfl),
   ((backend_health_sent_once windowOpenState rfl).2.2
      [healthResponse false, healthResponse false, healthResponse false]
      (healthResponse true) (healthBody true) []
      (by intro x hx; simp at hx; subst hx; rfl) rfl).1⟩

/-- C2, at the failing input: the window object has been closed (so access to
its `webContents` throws) and the first liveness response is `ok:true`. The
check sets `backendReady` and is then aborted before `clearInterval`, so
the state has `backendReady = true` with the poll timer still scheduled, and
no later outcome ever clears it. -/
theorem ready_with_timer_active_when_send_throws :
    (runChecks (startHealthPolling windowClosedState) [healthResponse true]).backendReady = true ∧
    (runChecks (startHealthPolling windowClosedState) [healthResponse true]).healthInterval
      = some 0 ∧
    (runChecks (startHealthPolling windowClosedState) [healthResponse true]).activeTimers
      = [(0, 1000)] ∧
    ∀ rs : List Liveness,
      (runChecks (startHealthPolling windowClosedState) (healthResponse true :: rs)).healthInterval
        = some 0 ∧
      (runChecks (startHealthPolling windowClosedState) (healthResponse true :: rs)).activeTimers
        = [(0, 1000)] := by
  refine ⟨rfl, rfl, rfl, ?_⟩
  intro rs
  have h : runChecks (startHealthPolling windowClosedState) (healthResponse true :: rs)
      = runChecks (runChecks (startHealthPolling windowClosedState) [healthResponse true]) rs :=
    runChecks_append _ [healthResponse true] rs
  rw [h, runChecks_backendReady _ rs rfl]
  exact ⟨rfl, rfl⟩

/-- With a window that is absent or open, every state reached from
`startHealthPolling` satisfies: `backendReady` implies no poll timer. -/
theorem ready_implies_timer_cleared_of_window_ok (s : MainState)
    (hw : s.mainWindow ≠ .destroyed) (rs : List Liveness) :
    (runChecks (startHealthPolling s) rs).backendReady = true →
      (runChecks (startHealthPolling s) rs).healthInterval = none := by
  have key : ∀ (rs : List Liveness) (t : MainState), t.mainWindow ≠ .destroyed →
      (t.backendReady = true → t.healthInterval = none) →
      (runChecks t rs).backendReady = true → (runChecks t rs).healthInterval = none := by
    intro rs
    induction rs with
    | nil => intro t _ hinv; exact hinv
    | cons r rest ih =>
      intro t ht hinv
      show (runChecks (checkBackendHealthOnce t r).1 rest).backendReady = true →
        (runChecks (checkBackendHealthOnce t r).1 rest).healthInterval = none
      apply ih
      · cases hb : t.backendReady with
        | true =>
          rw [checkBackendHealthOnce, resume_of_backendReady _ _ (by simpa [issueHealthRequest])]
          simpa [issueHealthRequest] using ht
        | false =>
          cases hr : r.readyBody with
          | none =>
            rw [checkBackendHealthOnce, resume_of_not_ready _ (by simp [Liveness.isReady, hr])]
            simpa [issueHealthRequest] using ht
          | some d =>
            rw [checkBackendHealthOnce, resume_of_ready _ hr (by simpa [issueHealthRequest])]
            cases hw : t.mainWindow with
            | destroyed => exact absurd hw ht
            | live =>
              simp only [issueHealthRequest, hw, clearHealthInterval, clearInterval]
              cases t.healthInterval <;> simp
            | absent =>
              simp only [issueHealthRequest, hw, clearHealthInterval, clearInterval]
              cases t.healthInterval <;> simp
      · cases hb : t.backendReady with
        | true =>
          rw [checkBackendHealthOnce, resume_of_backendReady _ _ (by simpa [issueHealthRequest])]
          intro _
          simpa [issueHealthRequest] using hinv hb
        | false =>
          cases hr : r.readyBody with
          | none =>
            rw [checkBackendHealthOnce, resume_of_not_ready _ (by simp [Liveness.isReady, hr])]
            intro h
            simp [issueHealthRequest, hb] at h
          | some d =>
            rw [checkBackendHealthOnce, resume_of_ready _ hr (by simpa [issueHealthRequest])]
            cases hw : t.mainWindow with
            | destroyed => exact absurd hw ht
            | live =>
              intro _
              simp only [issueHealthRequest, hw]
              exact clearHealthInterval_healthInterval _
            | absent =>
              intro _
              simp only [issueHealthRequest, hw]
              exact clearHealthInterval_healthInterval _
  apply key rs
  · simpa [startHealthPolling_mainWindow] using hw
  · intro h
    rw [startHealthPolling_backendReady] at h
    exact absurd h (by simp)

/-- C3: readiness is monotonic under liveness checks: from a state with
`backendReady = true`, `checkBackendHealthOnce` leaves `backendReady = true`
whatever the liveness outcome is. -/
theorem backendReady_monotonic (s : MainState) (r : Liveness) (h : s.backendReady = true) :
    (checkBackendHealthOnce s r).1.backendReady = true := by
  rw [checkBackendHealthOnce, resume_of_backendReady _ _ (by simpa [issueHealthRequest] using h)]
  simpa [issueHealthRequest] using h

/-- An instance of `backendReady_monotonic`: a rejected request after
readiness leaves the flag set. -/
theorem backendReady_monotonic_witness :
    (checkBackendHealthOnce { windowOpenState with backendReady := true }
      Liveness.rejected).1.backendReady = true :=
  backendReady_monotonic { windowOpenState with backendReady := true } Liveness.rejected rfl

/-- C10 as stated fails: with `backendReady = false` and the poll timer
scheduled, a check that receives `ok:true` changes both the guard and the
timer. -/
theorem check_once_changes_guard_and_timer :
    ¬ ((checkBackendHealthOnce (startHealthPolling windowOpenState)
          (healthResponse true)).1.backendReady
        = (startHealthPolling windowOpenState).backendReady ∧
       (checkBackendHealthOnce (startHealthPolling windowOpenState)
          (healthResponse true)).1.healthInterval
        = (startHealthPolling windowOpenState).healthInterval) := by
  intro h
  have h1 : (checkBackendHealthOnce (startHealthPolling windowOpenState)
      (healthResponse true)).1.backendReady = true := rfl
  have h2 : (startHealthPolling windowOpenState).backendReady = false := rfl
  rw [h1, h2] at h
  exact absurd h.1 (by decide)

/-- C10, amended: when `backendReady` is already true or the response is not a
ready one, `checkBackendHealthOnce` leaves `backendReady`, `healthInterval` and
the scheduled timers as they were and returns whether the response it just
received was ready (success status, truthy `ok`); when `backendReady` is false
and the response is ready, the call performs the transition itself: it sets
`backendReady`, and with a window whose send does not throw it clears the poll
timer and returns `true`. -/
theorem check_once_frame (s : MainState) (r : Liveness) :
    ((s.backendReady = true ∨ r.isReady = false) →
      (checkBackendHealthOnce s r).1.backendReady = s.backendReady ∧
      (checkBackendHealthOnce s r).1.healthInterval = s.healthInterval ∧
      (checkBackendHealthOnce s r).1.activeTimers = s.activeTimers ∧
      (checkBackendHealthOnce s r).2 = r.isReady) ∧
    ((s.backendReady = false ∧ r.isReady = true) →
      (checkBackendHealthOnce s r).1.backendReady = true ∧
      (s.mainWindow ≠ .destroyed →
        (checkBackendHealthOnce s r).1.healthInterval = none ∧
        (checkBackendHealthOnce s r).2 = true)) := by
  constructor
  · rintro (h | h)
    · rw [checkBackendHealthOnce,
        resume_of_backendReady _ _ (by simpa [issueHealthRequest] using h)]
      exact ⟨rfl, rfl, rfl, rfl⟩
    · rw [checkBackendHealthOnce, resume_of_not_ready _ h]
      exact ⟨rfl, rfl, rfl, h.symm⟩
  · rintro ⟨hb, hr⟩
    obtain ⟨d, hd⟩ := Option.isSome_iff_exists.mp hr
    rw [checkBackendHealthOnce, resume_of_ready _ hd (by simpa [issueHealthRequest] using hb)]
    cases hw : s.mainWindow with
    | destroyed => simp [issueHealthRequest, hw]
    | live =>
      simp only [issueHealthRequest, hw]
      exact ⟨by rw [clearHealthInterval_backendReady],
        fun _ => ⟨clearHealthInterval_healthInterval _, trivial⟩⟩
    | absent =>
      simp only [issueHealthRequest, hw]
      exact ⟨by rw [clearHealthInterval_backendReady],
        fun _ => ⟨clearHealthInterval_healthInterval _, trivial⟩⟩

/-- Instances of `check_once_frame`: an `ok:false` response during polling
leaves guard and timer alone and returns `false`; an `ok:true` response
performs the transition. -/
theorem check_once_frame_witness :
    ((checkBackendHealthOnce (startHealthPolling windowOpenState)
        (healthResponse false)).1.healthInterval = some 0 ∧
     (checkBackendHealthOnce (startHealthPolling windowOpenState)
        (healthResponse false)).2 = false) ∧
    ((checkBackendHealthOnce (startHealthPolling windowOpenState)
        (healthResponse true)).1.backendReady = true ∧
     (checkBackendHealthOnce (startHealthPolling windowOpenState)
        (healthResponse true)).1.healthInterval = none) :=
  ⟨⟨((check_once_frame (startHealthPolling windowOpenState) (healthResponse false)).1
        (Or.inr rfl)).2.1,
    ((check_once_frame (startHealthPolling windowOpenState) (healthResponse false)).1
        (Or.inr rfl)).2.2.2⟩,
   ⟨((check_once_frame (startHealthPolling windowOpenState) (healthResponse true)).2
        ⟨rfl, rfl⟩).1,
    (((check_once_frame (startHealthPolling windowOpenState) (healthResponse true)).2
        ⟨rfl, rfl⟩).2 (by decide)).1⟩⟩

/-! ## Theorems: the streaming loop -/

theorem utf8Run_append (d : Utf8State) (a b : List Byte) :
    utf8Run d (a ++ b) =
      ((utf8Run (utf8Run d a).1 b).1, (utf8Run d a).2 ++ (utf8Run (utf8Run d a).1 b).2) := by
  induction a generalizing d with
  | nil => simp [utf8Run]
  | cons x rest ih =>
    show utf8Run d (x :: (rest ++ b)) = _
    simp only [utf8Run]
    rw [ih]
    simp

theorem stripBom_append (seen : Bool) (x y : List Nat) :
    stripBom seen (x ++ y) =
      ((stripBom (stripBom seen x).1 y).1, (stripBom seen x).2 ++ (stripBom (stripBom seen x).1 y).2) := by
  cases seen with
  | true => simp [stripBom]
  | false =>
    cases x with
    | nil => simp [stripBom]
    | cons c rest =>
      by_cases hc : c = 0xFEFF <;> simp [stripBom, hc]

theorem decode_append (d : TextDecoder) (a b : List Byte) :
    d.decode (a ++ b) =
      (((d.decode a).1.decode b).1, (d.decode a).2 ++ ((d.decode a).1.decode b).2) := by
  simp only [TextDecoder.decode, utf8Run_append, stripBom_append, List.map_append]

theorem decode_nil (d : TextDecoder) : d.decode [] = (d, []) := by
  cases d with
  | mk u seen => cases seen <;> simp [TextDecoder.decode, utf8Run, stripBom]

theorem consHead_ne_nil (c : Char) (l : List JsString) : consHead c l ≠ [] := by
  cases l <;> simp [consHead]

theorem splitBlank_ne_nil (s : JsString) : splitBlank s ≠ [] := by
  match s with
  | [] => simp [splitBlank]
  | [c] => simp [splitBlank]
  | c :: d :: rest =>
    rw [splitBlank]
    split
    · simp
    · exact consHead_ne_nil _ _

/-- A text without a blank-line delimiter is the only piece of its split. -/
theorem splitBlank_single (s p : JsString) (h : splitBlank s = [p]) : p = s := by
  induction s using splitBlank.induct generalizing p with
  | case1 => simpa [splitBlank] using h.symm
  | case2 c => simpa [splitBlank] using h.symm
  | case3 c d rest hcd ih =>
    rw [splitBlank, if_pos hcd] at h
    simp only [List.cons.injEq] at h
    exact absurd h.2 (splitBlank_ne_nil rest)
  | case4 c d rest hne ih =>
    rw [splitBlank, if_neg hne] at h
    cases hY : splitBlank (d :: rest) with
    | nil => exact absurd hY (splitBlank_ne_nil _)
    | cons q qs =>
      rw [hY] at h
      simp only [consHead, List.cons.injEq] at h
      obtain ⟨h1, h2⟩ := h
      subst h2
      rw [← h1, ih q hY]

/-- Splitting a text that was extended at its end: the complete frames of the
shorter text are kept, and the split continues from its last piece. -/
theorem splitBlank_append (s t : JsString) :
    splitBlank (s ++ t) =
      (splitBlank s).dropLast ++ splitBlank ((splitBlank s).getLast?.getD [] ++ t) := by
  induction s using splitBlank.induct with
  | case1 => simp [splitBlank]
  | case2 c => simp [splitBlank]
  | case3 c d rest hcd ih =>
    have hne := splitBlank_ne_nil rest
    show splitBlank (c :: d :: (rest ++ t)) = _
    rw [splitBlank, if_pos hcd, splitBlank, if_pos hcd, ih]
    cases hX : splitBlank rest with
    | nil => exact absurd hX hne
    | cons x xs => simp [List.dropLast, List.getLast?_cons_cons]
  | case4 c d rest hcd ih =>
    show splitBlank (c :: d :: (rest ++ t)) = _
    have hstep : splitBlank (c :: d :: (rest ++ t)) = consHead c (splitBlank ((d :: rest) ++ t)) := by
      rw [splitBlank, if_neg hcd]; rfl
    rw [hstep, splitBlank, if_neg hcd]
    cases hY : splitBlank (d :: rest) with
    | nil => exact absurd hY (splitBlank_ne_nil _)
    | cons p ps =>
      cases ps with
      | nil =>
        have hp := splitBlank_single _ _ hY
        subst hp
        exact hstep.symm
      | cons q qs =>
        rw [ih, hY]
        simp [consHead, List.dropLast, List.getLast?_cons_cons]

/-- The locals `loc` with another decoder state and carry-over buffer. -/
theorem processFrame_with (ti : Int) (loc : StreamLocals) (msgs : List Msg) (ev : JsString)
    (d : TextDecoder) (a : JsString) :
    processFrame ti ({ loc with decoder := d, acc := a }, msgs) ev =
      ({ (processFrame ti (loc, msgs) ev).1 with decoder := d, acc := a },
        (processFrame ti (loc, msgs) ev).2) := by
  unfold processFrame
  by_cases h : (framePayload ev).isEmpty = true <;> simp [h]

theorem foldl_processFrame_with (ti : Int) (evs : List JsString) (loc : StreamLocals)
    (msgs : List Msg) (d : TextDecoder) (a : JsString) :
    evs.foldl (processFrame ti) ({ loc with decoder := d, acc := a }, msgs) =
      ({ (evs.foldl (processFrame ti) (loc, msgs)).1 with decoder := d, acc := a },
        (evs.foldl (processFrame ti) (loc, msgs)).2) := by
  induction evs generalizing loc msgs with
  | nil => rfl
  | cons ev rest ih =>
    simp only [List.foldl_cons]
    rw [processFrame_with, ih]

/-- One iteration of the read loop, as the frames of the extended buffer
processed on the old locals, with the new decoder and carry-over. -/
theorem readChunk_eq (ti : Int) (st : StreamLocals × List Msg) (value : List Byte) :
    readChunk ti st value =
      ({ ((splitBlank (st.1.acc ++ (st.1.decoder.decode value).2)).dropLast.foldl
            (processFrame ti) st).1 with
          decoder := (st.1.decoder.decode value).1,
          acc := (splitBlank (st.1.acc ++ (st.1.decoder.decode value).2)).getLast?.getD [] },
        ((splitBlank (st.1.acc ++ (st.1.decoder.decode value).2)).dropLast.foldl
            (processFrame ti) st).2) := by
  obtain ⟨loc, msgs⟩ := st
  simp only [readChunk]
  rw [foldl_processFrame_with]

/-- Two successive reads have the effect of one read of the two chunks joined. -/
theorem readChunk_append (ti : Int) (st : StreamLocals × List Msg) (a b : List Byte) :
    readChunk ti (readChunk ti st a) b = readChunk ti st (a ++ b) := by
  obtain ⟨loc, msgs⟩ := st
  rw [readChunk_eq ti (readChunk ti (loc, msgs) a) b, readChunk_eq ti (loc, msgs) a,
    readChunk_eq ti (loc, msgs) (a ++ b)]
  simp only [decode_append]
  rw [foldl_processFrame_with]
  have hsplit := splitBlank_append (loc.acc ++ (loc.decoder.decode a).2)
    (((loc.decoder.decode a).1.decode b).2)
  have hne := splitBlank_ne_nil
    ((splitBlank (loc.acc ++ (loc.decoder.decode a).2)).getLast?.getD [] ++
      ((loc.decoder.decode a).1.decode b).2)
  rw [← List.append_assoc, hsplit, List.dropLast_append_of_ne_nil _ hne, List.foldl_append,
    List.getLast?_append_of_ne_nil _ hne]

theorem readChunk_nil (ti : Int) (msgs : List Msg) (loc : StreamLocals) (h : loc.acc = []) :
    readChunk ti (loc, msgs) [] = (loc, msgs) := by
  cases loc with
  | mk decoder acc gotAny done payloads =>
    simp only at h
    subst h
    simp [readChunk, decode_nil, splitBlank]

theorem readLoop_cons_eq (ti : Int) (st : StreamLocals × List Msg) (a : List Byte)
    (rest : List (List Byte)) :
    readLoop ti st (a :: rest) = readChunk ti st (a :: rest).flatten := by
  induction rest generalizing st a with
  | nil => simp [readLoop]
  | cons b rest ih =>
    have h1 : readLoop ti st (a :: b :: rest) = readLoop ti (readChunk ti st a) (b :: rest) := rfl
    rw [h1, ih, readChunk_append]
    simp

/-- The read loop from the initial locals equals one read of the whole stream. -/
theorem readLoop_eq_one_read (ti : Int) (msgs : List Msg) (reads : List (List Byte)) :
    readLoop ti (StreamLocals.init, msgs) reads
      = readChunk ti (StreamLocals.init, msgs) reads.flatten := by
  cases reads with
  | nil =>
    rw [List.flatten_nil, readChunk_nil ti msgs StreamLocals.init rfl]
    rfl
  | cons a rest => exact readLoop_cons_eq ti _ a rest

/-- C4: for every byte stream and every two ways of cutting it into reads, the
streaming loop of `onSend` ends in the same state: the same payload for each
frame in the same order, the same terminal-marker flag `done`, the same
leftover buffer `acc` (and the same decoder state, `gotAny` flag and message
list); in particular the loop over the reads equals the loop over the whole
stream delivered in one read. -/
theorem stream_chunking_independent (targetIndex : Int) (msgs : List Msg)
    (reads1 reads2 : List (List Byte)) (h : reads1.flatten = reads2.flatten) :
    readLoop targetIndex (StreamLocals.init, msgs) reads1
      = readLoop targetIndex (StreamLocals.init, msgs) reads2 ∧
    readLoop targetIndex (StreamLocals.init, msgs) reads1
      = readLoop targetIndex (StreamLocals.init, msgs) [reads1.flatten] := by
  refine ⟨?_, ?_⟩
  · rw [readLoop_eq_one_read, readLoop_eq_one_read, h]
  · rw [readLoop_eq_one_read, readLoop_eq_one_read]
    simp

/-- An instance of `stream_chunking_independent`: the sample stream cut inside
a three-byte character and inside a delimiter gives the state of the uncut
stream, whose two payloads are `안` and `녕`. -/
theorem stream_chunking_independent_witness :
    sampleReads.flatten = [sampleStream].flatten ∧
    readLoop 2 (StreamLocals.init, (beginTurn "q".toList initialChatState).messages) sampleReads
      = readLoop 2 (StreamLocals.init, (beginTurn "q".toList initialChatState).messages)
          [sampleStream] ∧
    (readLoop 2 (StreamLocals.init, (beginTurn "q".toList initialChatState).messages)
        [sampleStream]).1.payloads = ["안".toList, "녕".toList] :=
  ⟨by decide,
   (stream_chunking_independent 2 (beginTurn "q".toList initialChatState).messages
      sampleReads [sampleStream] (by decide)).1,
   by decide⟩

/-- C5, at the failing input: the stream delivers the two non-empty payloads
`생각 중…` and `x`. The first replaces the placeholder by an equal text, so the
test `base === '생각 중…'` succeeds again and the second payload replaces the
slot's text: the slot ends as `x`, not as the concatenation `생각 중…x`. -/
theorem payload_equal_to_placeholder_is_overwritten :
    (readLoop 2 (StreamLocals.init, turnMessages) [collidingStream]).1.payloads
      = ["생각 중…".toList, "x".toList] ∧
    slotText turnMessages 2 = some (.str thinking) ∧
    slotText (readLoop 2 (StreamLocals.init, turnMessages) [collidingStream]).2 2
      = some (.str "x".toList) ∧
    "x".toList ≠ ["생각 중…".toList, "x".toList].flatten :=
  ⟨by decide, rfl, rfl, by decide⟩

theorem textOrEmpty_of_str (t : JsString) (m : Msg) (h : m.text = some (.str t)) :
    textOrEmpty m = .str t := by
  unfold textOrEmpty
  rw [h]
  cases t <;> simp [Json.truthy]

theorem applyPayload_text_of_str (p t : JsString) (m : Msg) (h : m.text = some (.str t)) :
    (applyPayload p m).text = some (.str (if t = thinking then p else t ++ p)) := by
  unfold applyPayload
  rw [textOrEmpty_of_str t m h]
  by_cases ht : t = thinking
  · simp [isThinking, ht]
  · simp [isThinking, ht, Json.toJsString]

/-- Payloads applied one after another to a slot give the slot's text followed
by all of them, as long as the text reached before each payload is not the
placeholder itself. -/
theorem foldl_applyPayload_text (ps : List JsString) (t : JsString) (m : Msg)
    (h : m.text = some (.str t))
    (hfree : ∀ k, k < ps.length → t ++ (ps.take k).flatten ≠ thinking) :
    (ps.foldl (fun m p => applyPayload p m) m).text = some (.str (t ++ ps.flatten)) := by
  induction ps generalizing t m with
  | nil => simpa using h
  | cons p rest ih =>
    have ht : t ≠ thinking := by simpa using hfree 0 (by simp)
    have h1 := applyPayload_text_of_str p t m h
    rw [if_neg ht] at h1
    rw [List.foldl_cons, ih (t ++ p) (applyPayload p m) h1]
    · simp
    · intro k hk
      have := hfree (k + 1) (by simpa using hk)
      simpa using this

/-- From the thinking placeholder, non-empty payloads give their concatenation
when no proper non-empty prefix of them concatenates to the placeholder text. -/
theorem payloads_concat_of_no_collision (p : JsString) (ps : List JsString) (m : Msg)
    (h : m.text = some (.str thinking))
    (hfree : ∀ k, k < ps.length → p ++ (ps.take k).flatten ≠ thinking) :
    ((p :: ps).foldl (fun m q => applyPayload q m) m).text
      = some (.str (p :: ps).flatten) := by
  have h1 := applyPayload_text_of_str p thinking m h
  rw [if_pos rfl] at h1
  rw [List.foldl_cons, foldl_applyPayload_text ps p (applyPayload p m) h1 hfree]
  simp

/-! ## Theorems: the fallback decision of `onSend` -/

theorem foldl_processFrame_flags (ti : Int) (evs : List JsString) (st : StreamLocals × List Msg) :
    (evs.foldl (processFrame ti) st).1.gotAny
        = (st.1.gotAny || evs.any (fun f => !(framePayload f).isEmpty)) ∧
    (evs.foldl (processFrame ti) st).1.done = (st.1.done || evs.any frameDone) := by
  induction evs generalizing st with
  | nil => simp
  | cons ev rest ih =>
    rw [List.foldl_cons]
    obtain ⟨h1, h2⟩ := ih (processFrame ti st ev)
    rw [h1, h2]
    unfold processFrame
    by_cases hp : (framePayload ev).isEmpty = true <;>
      by_cases hd : frameDone ev = true <;>
      simp [hp, hd, Bool.or_assoc]

/-- The flags after the read loop, in terms of the frames of the stream. -/
theorem readLoop_flags (ti : Int) (msgs : List Msg) (reads : List (List Byte)) :
    (readLoop ti (StreamLocals.init, msgs) reads).1.gotAny
        = (streamFrames reads).any (fun f => !(framePayload f).isEmpty) ∧
    (readLoop ti (StreamLocals.init, msgs) reads).1.done
        = (streamFrames reads).any frameDone := by
  rw [readLoop_eq_one_read, readChunk_eq]
  have h := foldl_processFrame_flags ti (streamFrames reads) (StreamLocals.init, msgs)
  simp only [StreamLocals.init, Bool.false_or] at h
  exact h

theorem streamSilent_eq (reads : List (List Byte)) :
    streamSilent reads
      = (!(streamFrames reads).any (fun f => !(framePayload f).isEmpty) &&
          !(streamFrames reads).any frameDone) := by
  unfold streamSilent
  induction streamFrames reads with
  | nil => rfl
  | cons f rest ih =>
    simp only [List.all_cons, List.any_cons, ih]
    cases (framePayload f).isEmpty <;> cases frameDone f <;> simp

theorem fallbackAfterStream_requests (basePath q : JsString) (n : Nat) (st : ChatState)
    (fallback : FallbackOutcome) :
    (fallbackAfterStream basePath q n st fallback).requests
      = st.requests ++ [.postQa basePath q] := by
  unfold fallbackAfterStream
  match fallback with
  | .rejected => rfl
  | .response none => rfl
  | .response (some data) =>
    simp only [applyAnswer]
    cases answerOrMarker data <;> rfl

theorem mapAt_length (f : Msg → Msg) (i : Nat) (msgs : List Msg) :
    (mapAt f i msgs).length = msgs.length := by
  induction msgs generalizing i with
  | nil => cases i <;> rfl
  | cons m ms ih =>
    cases i with
    | zero => rfl
    | succ j => simp [mapAt, ih]

theorem updateAt_length (ti : Int) (f : Msg → Msg) (msgs : List Msg) :
    (updateAt ti f msgs).length = msgs.length := by
  unfold updateAt
  split
  · rfl
  · exact mapAt_length _ _ _

theorem processFrame_length (ti : Int) (st : StreamLocals × List Msg) (ev : JsString) :
    (processFrame ti st ev).2.length = st.2.length := by
  unfold processFrame
  by_cases h : (framePayload ev).isEmpty = true
  · simp [h]
  · simp [h, updateAt_length]

theorem foldl_processFrame_length (ti : Int) (evs : List JsString)
    (st : StreamLocals × List Msg) :
    (evs.foldl (processFrame ti) st).2.length = st.2.length := by
  induction evs generalizing st with
  | nil => rfl
  | cons ev rest ih => rw [List.foldl_cons, ih, processFrame_length]

theorem readLoop_length (ti : Int) (msgs : List Msg) (reads : List (List Byte)) :
    (readLoop ti (StreamLocals.init, msgs) reads).2.length = msgs.length := by
  rw [readLoop_eq_one_read, readChunk_eq]
  exact foldl_processFrame_length ti _ _

theorem slotText_append_of_lt (msgs extra : List Msg) (i : Nat) (h : i < msgs.length) :
    slotText (msgs ++ extra) i = slotText msgs i := by
  unfold slotText
  rw [List.get?_eq_getElem?, List.get?_eq_getElem?, List.getElem?_append_left h]

theorem beginTurn_messages (q : JsString) (st : ChatState) :
    (beginTurn q st).messages
      = st.messages ++ [textMsg "user" q, textMsg "assistant" thinking] := by
  simp [beginTurn]

theorem beginTurn_assistantIndex (q : JsString) (st : ChatState) :
    (beginTurn q st).assistantIndex = ((st.messages.length + 1 : Nat) : Int) := by
  simp [beginTurn]

theorem messagesAfterStream_length (q : JsString) (st : ChatState) (reads : List (List Byte)) :
    (messagesAfterStream q st reads).length = st.messages.length + 2 := by
  unfold messagesAfterStream
  rw [readLoop_length, beginTurn_messages]
  simp

/-- The fallback decision: for every event-stream response whose read loop
ends by stream close or by watchdog cancellation, `onSend` issues the
`POST /qa` request exactly once when no frame had a non-empty payload and no
frame had the terminal marker, and not at all otherwise; and when some frame
had a non-empty payload, the turn ends with the messages as the streaming
loop left them followed by the actions message, whatever the fallback would
have answered. -/
theorem fallback_iff_stream_silent (basePath q : JsString) (n : Nat) (st : ChatState)
    (ok : Bool) (contentType : Option JsString) (reads : List (List Byte)) (ending : StreamEnd)
    (fallback : FallbackOutcome)
    (hsse : isEventStream ok contentType = true) (hend : ending ≠ .failed) :
    (onSendQA basePath q n st (.response ok contentType reads ending) fallback).requests
      = st.requests ++
          (if streamSilent reads then [.getStream basePath q, .postQa basePath q]
           else [.getStream basePath q]) ∧
    ((streamFrames reads).any (fun f => !(framePayload f).isEmpty) = true →
      (onSendQA basePath q n st (.response ok contentType reads ending) fallback).messages
        = messagesAfterStream q st reads ++ [actionsMsg n] ∧
      slotText
        (onSendQA basePath q n st (.response ok contentType reads ending) fallback).messages
        (st.messages.length + 1)
        = slotText (messagesAfterStream q st reads) (st.messages.length + 1)) := by
  have hflags := readLoop_flags (beginTurn q st).assistantIndex (beginTurn q st).messages reads
  have hsilent := streamSilent_eq reads
  have hreq : (beginTurn q st).requests = st.requests := rfl
  have hmain :
      onSendQA basePath q n st (.response ok contentType reads ending) fallback
        = if streamSilent reads then
            fallbackAfterStream basePath q n
              { beginTurn q st with
                  requests := (beginTurn q st).requests ++ [.getStream basePath q],
                  loading := false,
                  messages := messagesAfterStream q st reads } fallback
          else
            appendActions n
              { beginTurn q st with
                  requests := (beginTurn q st).requests ++ [.getStream basePath q],
                  loading := false,
                  messages := messagesAfterStream q st reads } := by
    simp only [onSendQA, hsse, if_true, sseBranch]
    rw [hsilent, ← hflags.1, ← hflags.2]
    cases ending with
    | failed => exact absurd rfl hend
    | closed => rfl
    | cancelled => rfl
  refine ⟨?_, ?_⟩
  · rw [hmain]
    by_cases hs : streamSilent reads = true
    · rw [if_pos hs, if_pos hs, fallbackAfterStream_requests]
      simp [hreq]
    · rw [if_neg hs, if_neg hs]
      simp [appendActions, hreq]
  · intro hany
    have hs : ¬ streamSilent reads = true := by
      rw [hsilent, hany]
      simp
    rw [hmain, if_neg hs]
    refine ⟨rfl, ?_⟩
    show slotText (messagesAfterStream q st reads ++ [actionsMsg n]) _ = _
    exact slotText_append_of_lt _ _ _ (by rw [messagesAfterStream_length]; omega)

/-- Instances of `fallback_iff_stream_silent`: an event stream that delivers
nothing before the watchdog cancels the read (Scenario D) is followed by
exactly one `POST /qa`; the sample stream, which carries payloads, is followed
by none, and its slot keeps the streamed text `안녕` although the fallback
endpoint would have answered `42`. -/
theorem fallback_iff_stream_silent_witness :
    (onSendQA "/docs".toList "q".toList 1 initialChatState
        (.response true eventStreamType [] .cancelled) (.response (some answer42))).requests
      = [.getStream "/docs".toList "q".toList, .postQa "/docs".toList "q".toList] ∧
    (onSendQA "/docs".toList "q".toList 1 initialChatState
        (.response true eventStreamType sampleReads .closed) (.response (some answer42))).requests
      = [.getStream "/docs".toList "q".toList] ∧
    slotText
      (onSendQA "/docs".toList "q".toList 1 initialChatState
        (.response true eventStreamType sampleReads .closed) (.response (some answer42))).messages
      2 = some (.str "안녕".toList) :=
  ⟨(fallback_iff_stream_silent "/docs".toList "q".toList 1 initialChatState true
      eventStreamType [] .cancelled (.response (some answer42)) (by decide) (by decide)).1.trans
      (by decide),
   (fallback_iff_stream_silent "/docs".toList "q".toList 1 initialChatState true
      eventStreamType sampleReads .closed (.response (some answer42)) (by decide)
      (by decide)).1.trans (by decide),
   ((fallback_iff_stream_silent "/docs".toList "q".toList 1 initialChatState true
      eventStreamType sampleReads .closed (.response (some answer42)) (by decide)
      (by decide)).2 (by decide)).2.trans rfl⟩

/-! ## Theorems: the fallback path of `onSend` -/

theorem updateAt_natCast (i : Nat) (f : Msg → Msg) (msgs : List Msg) :
    updateAt (i : Int) f msgs = mapAt f i msgs := by
  unfold updateAt
  rw [if_neg (by omega)]
  simp

theorem mapAt_append_right (f : Msg → Msg) (xs ys : List Msg) (i : Nat) :
    mapAt f (xs.length + i) (xs ++ ys) = xs ++ mapAt f i ys := by
  induction xs with
  | nil => simp
  | cons x rest ih =>
    have h : (x :: rest).length + i = (rest.length + i) + 1 := by simp; omega
    rw [h]
    simp [mapAt, ih]

/-- The fallback text written into the slot of the turn: the list after the
update of lines 188 and 202, for the messages a turn starts with. -/
theorem updateAt_turn_slot (q : JsString) (st : ChatState) (f : Msg → Msg) :
    updateAt (beginTurn q st).assistantIndex f (beginTurn q st).messages
      = st.messages ++ [textMsg "user" q, f (textMsg "assistant" thinking)] := by
  rw [beginTurn_assistantIndex, beginTurn_messages, updateAt_natCast, mapAt_append_right]
  rfl

theorem slotText_turn_slot (msgs : List Msg) (a b : Msg) (extra : List Msg) :
    slotText (msgs ++ [a, b] ++ extra) (msgs.length + 1) = b.text := by
  unfold slotText
  rw [List.get?_eq_getElem?, List.append_assoc, List.getElem?_append_right (by omega)]
  simp

/-- C7: when the response to the streaming request does not declare an event
stream (the `content-type` header is absent or does not contain
`text/event-stream`), `onSend` issues exactly one `POST /qa` request, with the
base path and query text of the streaming request; the turn does not depend on
the response's body, of which nothing is read; and when the fallback body's
`answer` is the string `42`, the turn's slot text ends as `42`. -/
theorem non_event_stream_uses_fallback (basePath q : JsString) (n : Nat) (st : ChatState)
    (ok : Bool) (contentType : Option JsString) (reads : List (List Byte)) (ending : StreamEnd)
    (fallback : FallbackOutcome)
    (hct : includes "text/event-stream".toList (contentType.getD []) = false) :
    (onSendQA basePath q n st (.response ok contentType reads ending) fallback).requests
      = st.requests ++ [.getStream basePath q, .postQa basePath q] ∧
    (∀ (reads2 : List (List Byte)) (ending2 : StreamEnd),
      onSendQA basePath q n st (.response ok contentType reads2 ending2) fallback
        = onSendQA basePath q n st (.response ok contentType reads ending) fallback) ∧
    (∀ data : Json, data.getField "answer" = some (.str "42".toList) →
      fallback = .response (some data) →
      slotText
        (onSendQA basePath q n st (.response ok contentType reads ending) fallback).messages
        (st.messages.length + 1) = some (.str "42".toList)) := by
  have hsse : isEventStream ok contentType = false := by
    unfold isEventStream
    rw [hct]
    simp
  have hmain : ∀ (reads2 : List (List Byte)) (ending2 : StreamEnd),
      onSendQA basePath q n st (.response ok contentType reads2 ending2) fallback
        = nonSseBranch basePath q n
            { beginTurn q st with
                requests := (beginTurn q st).requests ++ [.getStream basePath q] } fallback := by
    intro reads2 ending2
    simp [onSendQA, hsse]
  refine ⟨?_, ?_, ?_⟩
  · rw [hmain]
    have hreq : (beginTurn q st).requests = st.requests := rfl
    unfold nonSseBranch
    match fallback with
    | .rejected => simp [catchQA, hreq]
    | .response none => simp [catchQA, hreq]
    | .response (some data) =>
      simp only [applyAnswer]
      cases answerOrMarker data <;> simp [appendActions, hreq]
  · intro reads2 ending2
    rw [hmain, hmain]
  · intro data hdata hfb
    subst hfb
    have hans : answerOrMarker data = some (.str "42".toList) := by
      cases data with
      | obj fields =>
        simp only [answerOrMarker, hdata]
        rfl
      | null => simp [Json.getField] at hdata
      | bool b => simp [Json.getField] at hdata
      | num k => simp [Json.getField] at hdata
      | str t => simp [Json.getField] at hdata
      | arr items => simp [Json.getField] at hdata
    rw [hmain]
    simp only [nonSseBranch, applyAnswer, hans, appendActions]
    rw [updateAt_turn_slot]
    exact slotText_turn_slot _ _ _ _

/-- Scenario C as an instance of `non_event_stream_uses_fallback`: the
streaming endpoint answers with content type `text/plain`, the fallback
answers `42`; one `POST /qa` is issued and the slot shows `42`. -/
theorem non_event_stream_uses_fallback_witness :
    includes "text/event-stream".toList (plainType.getD []) = false ∧
    (onSendQA "/docs".toList "q".toList 1 initialChatState
        (.response true plainType sampleReads .closed) (.response (some answer42))).requests
      = [.getStream "/docs".toList "q".toList, .postQa "/docs".toList "q".toList] ∧
    slotText
      (onSendQA "/docs".toList "q".toList 1 initialChatState
        (.response true plainType sampleReads .closed) (.response (some answer42))).messages 2
      = some (.str "42".toList) :=
  ⟨by decide,
   (non_event_stream_uses_fallback "/docs".toList "q".toList 1 initialChatState true plainType
      sampleReads .closed (.response (some answer42)) (by decide)).1,
   (non_event_stream_uses_fallback "/docs".toList "q".toList 1 initialChatState true plainType
      sampleReads .closed (.response (some answer42)) (by decide)).2.2 answer42 rfl rfl⟩

/-- C8, at the failing input: the streaming fetch is rejected and the fallback
endpoint would have answered `42`. The turn goes straight to the `catch`
block: no `POST /qa` request is issued, the error toast is pushed at once and
the slot keeps the placeholder. The sibling failure of the same request, a
response with a non-success status, does reach the fallback: its turn issues
the `POST /qa` request, pushes no toast and shows `42`. -/
theorem stream_rejected_skips_fallback :
    (Request.postQa "/docs".toList "q".toList ∉
      (onSendQA "/docs".toList "q".toList 1 initialChatState .rejected
        (.response (some answer42))).requests ∧
     (onSendQA "/docs".toList "q".toList 1 initialChatState .rejected
        (.response (some answer42))).toasts = [qaErrorToast] ∧
     slotText
      (onSendQA "/docs".toList "q".toList 1 initialChatState .rejected
        (.response (some answer42))).messages 2 = some (.str "생각 중…".toList)) ∧
    (Request.postQa "/docs".toList "q".toList ∈
      (onSendQA "/docs".toList "q".toList 1 initialChatState
        (.response false none [] .closed) (.response (some answer42))).requests ∧
     (onSendQA "/docs".toList "q".toList 1 initialChatState
        (.response false none [] .closed) (.response (some answer42))).toasts = [] ∧
     slotText
      (onSendQA "/docs".toList "q".toList 1 initialChatState
        (.response false none [] .closed) (.response (some answer42))).messages 2
      = some (.str "42".toList)) :=
  ⟨⟨by decide, by decide, rfl⟩, ⟨by decide, by decide, rfl⟩⟩

/-- Every turn whose streaming fetch is rejected: the streaming request is the
only request of the turn, whatever the fallback endpoint would have answered,
and one error toast is pushed. -/
theorem stream_rejected_toast_only (basePath q : JsString) (n : Nat) (st : ChatState)
    (fallback : FallbackOutcome) :
    (onSendQA basePath q n st .rejected fallback).requests
      = st.requests ++ [.getStream basePath q] ∧
    (onSendQA basePath q n st .rejected fallback).toasts = st.toasts ++ [qaErrorToast] :=
  ⟨rfl, rfl⟩

/-- C9, on the non-event-stream path: when the fallback request is rejected or
its body is not valid JSON, exactly one error toast is pushed, as the claim
says, but the turn's slot is left untouched: its text is still the thinking
placeholder, and no failure text is written. -/
theorem failed_fallback_keeps_placeholder (basePath q : JsString) (n : Nat) (st : ChatState)
    (ok : Bool) (contentType : Option JsString) (reads : List (List Byte)) (ending : StreamEnd)
    (fallback : FallbackOutcome)
    (hsse : isEventStream ok contentType = false)
    (hfail : fallback = .rejected ∨ fallback = .response none) :
    (onSendQA basePath q n st (.response ok contentType reads ending) fallback).toasts
      = st.toasts ++ [qaErrorToast] ∧
    slotText
      (onSendQA basePath q n st (.response ok contentType reads ending) fallback).messages
      (st.messages.length + 1) = some (.str thinking) := by
  have hslot : slotText (beginTurn q st).messages (st.messages.length + 1)
      = some (.str thinking) := by
    rw [beginTurn_messages]
    have h := slotText_turn_slot st.messages (textMsg "user" q) (textMsg "assistant" thinking) []
    simpa using h
  have hmain :
      onSendQA basePath q n st (.response ok contentType reads ending) fallback
        = nonSseBranch basePath q n
            { beginTurn q st with
                requests := (beginTurn q st).requests ++ [.getStream basePath q] } fallback := by
    simp [onSendQA, hsse]
  rw [hmain]
  rcases hfail with h | h <;> subst h
  · exact ⟨rfl, hslot⟩
  · exact ⟨rfl, hslot⟩

/-- An instance of `failed_fallback_keeps_placeholder`: content type
`text/plain`, then the fallback request is rejected; one toast is pushed and
the slot still reads `생각 중…`. -/
theorem failed_fallback_keeps_placeholder_witness :
    (onSendQA "/docs".toList "q".toList 1 initialChatState
        (.response true plainType [] .closed) .rejected).toasts = [qaErrorToast] ∧
    slotText
      (onSendQA "/docs".toList "q".toList 1 initialChatState
        (.response true plainType [] .closed) .rejected).messages 2
      = some (.str "생각 중…".toList) :=
  failed_fallback_keeps_placeholder "/docs".toList "q".toList 1 initialChatState true plainType
    [] .closed .rejected (by decide) (Or.inl rfl)

/-! ## Theorems: shutdown, pull query and failed checks (main.js) -/

theorem clearInterval_idem (id : Nat) (s : MainState) :
    clearInterval id (clearInterval id s) = clearInterval id s := by
  simp [clearInterval, List.filter_filter]

theorem beforeQuit_main (h : HostState) :
    (beforeQuit h).main =
      match h.main.healthInterval with
      | some id => clearInterval id h.main
      | none => h.main := by
  unfold beforeQuit
  cases hp : h.pyProc <;> cases hi : h.main.healthInterval <;> simp [hi]

/-- C11 as stated fails: with a process handle, two runs of the `before-quit`
handler in a row make two `pyProc.kill()` calls in total, not one, the second
run making one itself. -/
theorem before_quit_twice_kills_twice :
    runningHostState.pyProc.isSome = true ∧
    ¬ ((beforeQuit (beforeQuit runningHostState)).killCalls = runningHostState.killCalls + 1) ∧
    (beforeQuit (beforeQuit runningHostState)).killCalls
      = (beforeQuit runningHostState).killCalls + 1 := by
  decide

/-- C11, amended: every run of the `before-quit` handler calls `pyProc.kill()`
once when the handle exists, so two runs in a row make two calls; a run
unschedules the timer held in `healthInterval`; the second run changes nothing
but the count of kill calls; and without a handle no run makes a kill call and
the second run changes nothing at all. -/
theorem before_quit_runs (h : HostState) :
    (h.pyProc.isSome = true →
      (beforeQuit h).killCalls = h.killCalls + 1 ∧
      (beforeQuit (beforeQuit h)).killCalls = h.killCalls + 2 ∧
      beforeQuit (beforeQuit h)
        = { beforeQuit h with killCalls := (beforeQuit h).killCalls + 1 }) ∧
    (∀ id, h.main.healthInterval = some id →
      ∀ t ∈ (beforeQuit h).main.activeTimers, t.1 ≠ id) ∧
    (h.pyProc = none →
      (beforeQuit h).killCalls = h.killCalls ∧ beforeQuit (beforeQuit h) = beforeQuit h) := by
  refine ⟨?_, ?_, ?_⟩
  · intro hp
    obtain ⟨c, hc⟩ := Option.isSome_iff_exists.mp hp
    cases hi : h.main.healthInterval with
    | none => simp [beforeQuit, hc, hi]
    | some id =>
      have h1 : (clearInterval id h.main).healthInterval = some id := by
        simpa [clearInterval] using hi
      simp [beforeQuit, hc, hi, h1, clearInterval_idem]
  · intro id hid t ht
    rw [beforeQuit_main, hid] at ht
    simp only [clearInterval, List.mem_filter] at ht
    simpa using ht.2
  · intro hp
    cases hi : h.main.healthInterval with
    | none => simp [beforeQuit, hp, hi]
    | some id =>
      have h1 : (clearInterval id h.main).healthInterval = some id := by
        simpa [clearInterval] using hi
      simp [beforeQuit, hp, hi, h1, clearInterval_idem]

/-- Instances of `before_quit_runs` on the state the `ready` handler leaves:
two runs make two kill calls, and the first leaves no timer scheduled. -/
theorem before_quit_runs_witness :
    runningHostState.pyProc.isSome = true ∧
    runningHostState.main.healthInterval = some 0 ∧
    (beforeQuit (beforeQuit runningHostState)).killCalls = 2 ∧
    (∀ t ∈ (beforeQuit runningHostState).main.activeTimers, t.1 ≠ 0) ∧
    (beforeQuit initialHostState).killCalls = 0 :=
  ⟨by decide, by decide,
   ((before_quit_runs runningHostState).1 (by decide)).2.1,
   (before_quit_runs runningHostState).2.1 0 (by decide),
   ((before_quit_runs initialHostState).2.2 rfl).1⟩

/-- C12: in every state the `get-backend-health` handler returns the cached
flag, `ready` equal to `backendReady`, and leaves the whole module state as it
was, so it issues no liveness request and changes neither `backendReady` nor
`healthInterval`; in the state at load and after any checks that were not
ready it returns `ready = false`; after the check that makes the readiness
transition it returns `ready = true`. -/
theorem pull_query_returns_cached_flag (s : MainState) :
    (getBackendHealth s).2 = { ready := s.backendReady } ∧
    (getBackendHealth s).1 = s ∧
    (getBackendHealth s).1.healthRequests = s.healthRequests ∧
    (getBackendHealth s).1.backendReady = s.backendReady ∧
    (getBackendHealth s).1.healthInterval = s.healthInterval ∧
    (getBackendHealth initialMainState).2 = { ready := false } ∧
    (∀ rs : List Liveness, (∀ x ∈ rs, x.isReady = false) →
      (getBackendHealth (runChecks (startHealthPolling s) rs)).2 = { ready := false }) ∧
    (∀ r : Liveness, r.isReady = true → s.backendReady = false →
      (getBackendHealth (checkBackendHealthOnce s r).1).2 = { ready := true }) := by
  refine ⟨rfl, rfl, rfl, rfl, rfl, rfl, ?_, ?_⟩
  · intro rs hrs
    rw [runChecks_not_ready _ _ hrs]
    show ({ ready := (startHealthPolling s).backendReady } : Readiness) = _
    rw [startHealthPolling_backendReady]
  · intro r hr hs
    obtain ⟨d, hd⟩ := Option.isSome_iff_exists.mp hr
    show ({ ready := (checkBackendHealthOnce s r).1.backendReady } : Readiness) = _
    rw [checkBackendHealthOnce, resume_of_ready _ hd (by simpa [issueHealthRequest] using hs)]
    cases hw : s.mainWindow with
    | destroyed => simp [issueHealthRequest, hw]
    | live =>
      simp only [issueHealthRequest, hw]
      rw [clearHealthInterval_backendReady]
    | absent =>
      simp only [issueHealthRequest, hw]
      rw [clearHealthInterval_backendReady]

/-- Instances of `pull_query_returns_cached_flag`: during polling, after two
failed checks the pull query answers `ready = false`; after an `ok:true`
response it answers `ready = true`. -/
theorem pull_query_returns_cached_flag_witness :
    (getBackendHealth (runChecks (startHealthPolling windowOpenState)
        [Liveness.rejected, healthResponse false])).2 = { ready := false } ∧
    (getBackendHealth (checkBackendHealthOnce (startHealthPolling windowOpenState)
        (healthResponse true)).1).2 = { ready := true } :=
  ⟨(pull_query_returns_cached_flag windowOpenState).2.2.2.2.2.2.1
      [Liveness.rejected, healthResponse false]
      (by intro x hx; simp at hx; rcases hx with rfl | rfl <;> rfl),
   (pull_query_returns_cached_flag (startHealthPolling windowOpenState)).2.2.2.2.2.2.2
      (healthResponse true) rfl rfl⟩

theorem startHealthPolling_healthInterval (s : MainState) :
    (startHealthPolling s).healthInterval = some s.nextTimerId := by
  simp only [startHealthPolling, setInterval, issueHealthRequest, clearHealthInterval,
    clearInterval]
  cases s.healthInterval <;> rfl

theorem startHealthPolling_timer_mem (s : MainState) :
    (s.nextTimerId, 1000) ∈ (startHealthPolling s).activeTimers := by
  simp only [startHealthPolling, setInterval, issueHealthRequest, clearHealthInterval,
    clearInterval]
  cases s.healthInterval <;> simp

/-- C13: when no outcome of a sequence is a ready response (each is a rejected
request, a non-success status, a body that is not JSON, or a body whose `ok`
is falsy or missing), every `checkBackendHealthOnce` call of the sequence
returns `false` (the model's function is total: nothing is thrown),
`backendReady` stays false, no notification is sent, the poll timer set by
`startHealthPolling` stays in `healthInterval` and scheduled, and the pull
query afterwards returns `ready = false`. -/
theorem failed_checks_keep_polling (s : MainState) (rs : List Liveness)
    (h : ∀ x ∈ rs, x.isReady = false) :
    (∀ pre r post, rs = pre ++ r :: post →
      (checkBackendHealthOnce (runChecks (startHealthPolling s) pre) r).2 = false) ∧
    (runChecks (startHealthPolling s) rs).backendReady = false ∧
    (runChecks (startHealthPolling s) rs).sent = s.sent ∧
    (runChecks (startHealthPolling s) rs).healthInterval = some s.nextTimerId ∧
    (s.nextTimerId, 1000) ∈ (runChecks (startHealthPolling s) rs).activeTimers ∧
    (getBackendHealth (runChecks (startHealthPolling s) rs)).2 = { ready := false } := by
  have hstate := runChecks_not_ready (startHealthPolling s) rs h
  refine ⟨?_, ?_, ?_, ?_, ?_, ?_⟩
  · intro pre r post hrs
    have hr : r.isReady = false := h r (by rw [hrs]; simp)
    rw [checkBackendHealthOnce, resume_of_not_ready _ hr]
  · rw [hstate]; exact startHealthPolling_backendReady s
  · rw [hstate]; exact startHealthPolling_sent s
  · rw [hstate]; exact startHealthPolling_healthInterval s
  · rw [hstate]; exact startHealthPolling_timer_mem s
  · show ({ ready := (runChecks (startHealthPolling s) rs).backendReady } : Readiness) = _
    rw [hstate]
    show ({ ready := (startHealthPolling s).backendReady } : Readiness) = _
    rw [startHealthPolling_backendReady]

/-- An instance of `failed_checks_keep_polling` with one outcome of each failing
kind (Scenario E: nothing ever answers ready). -/
theorem failed_checks_keep_polling_witness :
    (∀ x ∈ failedOutcomes, x.isReady = false) ∧
    (runChecks (startHealthPolling windowOpenState) failedOutcomes).backendReady = false ∧
    (runChecks (startHealthPolling windowOpenState) failedOutcomes).sent = [] ∧
    (runChecks (startHealthPolling windowOpenState) failedOutcomes).healthInterval = some 0 ∧
    (getBackendHealth (runChecks (startHealthPolling windowOpenState) failedOutcomes)).2
      = { ready := false } :=
  have hall : ∀ x ∈ failedOutcomes, x.isReady = false := by
    intro x hx
    simp [failedOutcomes] at hx
    rcases hx with rfl | rfl | rfl | rfl | rfl <;> rfl
  ⟨hall,
   (failed_checks_keep_polling windowOpenState failedOutcomes hall).2.1,
   (failed_checks_keep_polling windowOpenState failedOutcomes hall).2.2.1,
   (failed_checks_keep_polling windowOpenState failedOutcomes hall).2.2.2.1,
   (failed_checks_keep_polling windowOpenState failedOutcomes hall).2.2.2.2.2⟩

/-! ## Theorems: frames, slot updates and fallback text (ChatPage.jsx) -/

theorem framePayload_eq_spec (ev : JsString) : framePayload ev = specFramePayload ev := by
  unfold framePayload specFramePayload frameLines
  rw [List.filter_filter]
  congr 2
  apply List.filter_congr
  intro l _
  cases l with
  | nil => rfl
  | cons c cs => simp

theorem frameDone_eq_spec (ev : JsString) :
    frameDone ev = (splitLines ev).any (startsWith "event: done".toList) := by
  unfold frameDone frameLines
  rw [List.any_filter]
  congr 1
  funext l
  cases l with
  | nil => rfl
  | cons c cs => simp

theorem foldl_processFrame_payloads (ti : Int) (evs : List JsString)
    (st : StreamLocals × List Msg) :
    (evs.foldl (processFrame ti) st).1.payloads = st.1.payloads ++ evs.map framePayload := by
  induction evs generalizing st with
  | nil => simp
  | cons ev rest ih =>
    rw [List.foldl_cons, ih]
    unfold processFrame
    by_cases hp : (framePayload ev).isEmpty = true <;> simp [hp]

/-- C14: the payload the loop computes for a frame is the frame's lines that
begin with `data: `, each without those six characters, in their order, joined
by newlines (lines without the marker take no part in it); the loop computes
this payload for each complete frame of the stream in order; and the `done`
flag is true at the end of the loop exactly when some line of some complete
frame begins with `event: done`. -/
theorem frame_payload_and_done_flag (targetIndex : Int) (msgs : List Msg)
    (reads : List (List Byte)) :
    (∀ ev : JsString, framePayload ev = specFramePayload ev) ∧
    (readLoop targetIndex (StreamLocals.init, msgs) reads).1.payloads
      = (streamFrames reads).map specFramePayload ∧
    (readLoop targetIndex (StreamLocals.init, msgs) reads).1.done
      = specTerminated (streamFrames reads) ∧
    ((readLoop targetIndex (StreamLocals.init, msgs) reads).1.done = true ↔
      ∃ f ∈ streamFrames reads, ∃ l ∈ splitLines f, startsWith "event: done".toList l = true) := by
  have hdone : (readLoop targetIndex (StreamLocals.init, msgs) reads).1.done
      = specTerminated (streamFrames reads) := by
    rw [(readLoop_flags targetIndex msgs reads).2]
    unfold specTerminated
    congr 1
    funext f
    exact frameDone_eq_spec f
  refine ⟨framePayload_eq_spec, ?_, hdone, ?_⟩
  · rw [readLoop_eq_one_read, readChunk_eq]
    have h := foldl_processFrame_payloads targetIndex (streamFrames reads)
      (StreamLocals.init, msgs)
    simp only [StreamLocals.init, List.nil_append] at h
    have hmap : (streamFrames reads).map framePayload
        = (streamFrames reads).map specFramePayload :=
      List.map_congr_left (fun ev _ => framePayload_eq_spec ev)
    rw [← hmap]
    exact h
  · rw [hdone]
    simp [specTerminated]

/-- An instance of `frame_payload_and_done_flag`: in the mixed stream the first
frame's payload is its two data lines joined by a newline, the second frame
has an empty payload, and the terminal marker sets `done`. -/
theorem frame_payload_and_done_flag_witness :
    (readLoop 2 (StreamLocals.init, turnMessages) [mixedStream]).1.payloads
      = ["a\nb".toList, []] ∧
    (readLoop 2 (StreamLocals.init, turnMessages) [mixedStream]).1.done = true :=
  ⟨(frame_payload_and_done_flag 2 turnMessages [mixedStream]).2.1.trans (by decide),
   (frame_payload_and_done_flag 2 turnMessages [mixedStream]).2.2.1.trans (by decide)⟩

theorem mapAt_get?_ne (f : Msg → Msg) (i j : Nat) (msgs : List Msg) (h : j ≠ i) :
    (mapAt f i msgs).get? j = msgs.get? j := by
  induction msgs generalizing i j with
  | nil => cases i <;> rfl
  | cons m ms ih =>
    cases i with
    | zero =>
      cases j with
      | zero => exact absurd rfl h
      | succ k => rfl
    | succ i' =>
      cases j with
      | zero => rfl
      | succ k =>
        simp only [mapAt, List.get?_cons_succ]
        exact ih i' k (by omega)

theorem mapAt_get?_eq (f : Msg → Msg) (i : Nat) (msgs : List Msg) :
    (mapAt f i msgs).get? i = (msgs.get? i).map f := by
  induction msgs generalizing i with
  | nil => cases i <;> rfl
  | cons m ms ih =>
    cases i with
    | zero => rfl
    | succ i' =>
      simp only [mapAt, List.get?_cons_succ]
      exact ih i'

/-- An update of the slot at a recorded index through a function that changes
only `text` keeps the length, every other message and the slot's other fields. -/
theorem updateAt_frame (i : Nat) (f : Msg → Msg) (hf : ∀ m : Msg, m.sameButText (f m))
    (prev : List Msg) :
    (updateAt (i : Int) f prev).length = prev.length ∧
    (∀ j, j ≠ i → (updateAt (i : Int) f prev).get? j = prev.get? j) ∧
    (∀ m, prev.get? i = some m →
      ∃ m2, (updateAt (i : Int) f prev).get? i = some m2 ∧ m.sameButText m2) := by
  rw [updateAt_natCast]
  refine ⟨mapAt_length _ _ _, fun j hj => mapAt_get?_ne _ _ _ _ hj, ?_⟩
  intro m hm
  exact ⟨f m, by rw [mapAt_get?_eq, hm]; rfl, hf m⟩

theorem applyPayload_sameButText (text : JsString) (m : Msg) :
    m.sameButText (applyPayload text m) := ⟨rfl, rfl, rfl, rfl⟩

/-- C15: for every message list `M` at the start of a turn, the two initial
updates give `M ++ [user message q, thinking placeholder]` and record the
placeholder's index `|M| + 1`; every payload update of the streaming loop and
every fallback update, made on any current list through that recorded index,
keeps the list's length, every message at another index, and every field
other than `text` of the message at that index. -/
theorem turn_updates_touch_only_slot (q : JsString) (st : ChatState) :
    (beginTurn q st).messages
      = st.messages ++ [textMsg "user" q, textMsg "assistant" thinking] ∧
    (beginTurn q st).assistantIndex = ((st.messages.length + 1 : Nat) : Int) ∧
    (beginTurn q st).messages.get? (st.messages.length + 1)
      = some (textMsg "assistant" thinking) ∧
    (∀ (loc : StreamLocals) (prev : List Msg) (ev : JsString),
      (processFrame (beginTurn q st).assistantIndex (loc, prev) ev).2.length = prev.length ∧
      (∀ j, j ≠ st.messages.length + 1 →
        (processFrame (beginTurn q st).assistantIndex (loc, prev) ev).2.get? j = prev.get? j) ∧
      (∀ m, prev.get? (st.messages.length + 1) = some m →
        ∃ m2, (processFrame (beginTurn q st).assistantIndex (loc, prev) ev).2.get?
            (st.messages.length + 1) = some m2 ∧ m.sameButText m2)) ∧
    (∀ (data : Json) (cs cs2 : ChatState),
      cs.assistantIndex = (beginTurn q st).assistantIndex → applyAnswer data cs = some cs2 →
      cs2.messages.length = cs.messages.length ∧
      (∀ j, j ≠ st.messages.length + 1 → cs2.messages.get? j = cs.messages.get? j) ∧
      (∀ m, cs.messages.get? (st.messages.length + 1) = some m →
        ∃ m2, cs2.messages.get? (st.messages.length + 1) = some m2 ∧ m.sameButText m2)) := by
  refine ⟨beginTurn_messages q st, beginTurn_assistantIndex q st, ?_, ?_, ?_⟩
  · rw [beginTurn_messages, List.get?_eq_getElem?, List.getElem?_append_right (by omega)]
    simp
  · intro loc prev ev
    rw [beginTurn_assistantIndex]
    by_cases hp : (framePayload ev).isEmpty = true
    · have hsame : (processFrame ((st.messages.length + 1 : Nat) : Int) (loc, prev) ev).2
          = prev := by
        unfold processFrame
        simp [hp]
      rw [hsame]
      exact ⟨rfl, fun _ _ => rfl, fun m hm => ⟨m, hm, rfl, rfl, rfl, rfl⟩⟩
    · have hupd : (processFrame ((st.messages.length + 1 : Nat) : Int) (loc, prev) ev).2
          = updateAt ((st.messages.length + 1 : Nat) : Int)
              (applyPayload (framePayload ev)) prev := by
        unfold processFrame
        simp [hp]
      rw [hupd]
      exact updateAt_frame _ _ (applyPayload_sameButText _) prev
  · intro data cs cs2 hidx hans
    unfold applyAnswer at hans
    cases ht : answerOrMarker data with
    | none => simp [ht] at hans
    | some t =>
      simp only [ht, Option.some.injEq] at hans
      subst hans
      simp only [hidx, beginTurn_assistantIndex]
      exact updateAt_frame (st.messages.length + 1) (fun m => { m with text := some t })
        (fun m => ⟨rfl, rfl, rfl, rfl⟩) cs.messages

/-- An instance of `turn_updates_touch_only_slot` on the first turn of a
conversation: the frame `data: Hi` changes only the slot at index 2, whose
sender stays the assistant, and leaves the user message at index 1 alone. -/
theorem turn_updates_touch_only_slot_witness :
    (beginTurn "q".toList initialChatState).assistantIndex = 2 ∧
    (processFrame (beginTurn "q".toList initialChatState).assistantIndex
        (StreamLocals.init, turnMessages) "data: Hi".toList).2.length = 3 ∧
    (processFrame (beginTurn "q".toList initialChatState).assistantIndex
        (StreamLocals.init, turnMessages) "data: Hi".toList).2.get? 1 = turnMessages.get? 1 ∧
    (∃ m2, (processFrame (beginTurn "q".toList initialChatState).assistantIndex
        (StreamLocals.init, turnMessages) "data: Hi".toList).2.get? 2 = some m2 ∧
      (textMsg "assistant" thinking).sameButText m2) :=
  ⟨(turn_updates_touch_only_slot "q".toList initialChatState).2.1,
   ((turn_updates_touch_only_slot "q".toList initialChatState).2.2.2.1
      StreamLocals.init turnMessages "data: Hi".toList).1,
   ((turn_updates_touch_only_slot "q".toList initialChatState).2.2.2.1
      StreamLocals.init turnMessages "data: Hi".toList).2.1 1 (by decide),
   ((turn_updates_touch_only_slot "q".toList initialChatState).2.2.2.1
      StreamLocals.init turnMessages "data: Hi".toList).2.2
      (textMsg "assistant" thinking) rfl⟩

theorem foldl_processFrame_silent (ti : Int) (evs : List JsString)
    (st : StreamLocals × List Msg) (h : ∀ ev ∈ evs, (framePayload ev).isEmpty = true) :
    (evs.foldl (processFrame ti) st).2 = st.2 := by
  induction evs generalizing st with
  | nil => rfl
  | cons ev rest ih =>
    rw [List.foldl_cons, ih _ (fun e he => h e (List.mem_cons_of_mem _ he))]
    unfold processFrame
    simp [h ev (List.mem_cons_self _ _)]

/-- A stream without payload leaves the messages of the turn as they were. -/
theorem messagesAfterStream_of_silent (q : JsString) (st : ChatState)
    (reads : List (List Byte)) (h : streamSilent reads = true) :
    messagesAfterStream q st reads = (beginTurn q st).messages := by
  unfold messagesAfterStream
  rw [readLoop_eq_one_read, readChunk_eq]
  apply foldl_processFrame_silent
  intro ev hev
  unfold streamSilent at h
  rw [List.all_eq_true] at h
  have := h ev hev
  simp only [Bool.and_eq_true] at this
  exact this.1

/-- The turn on the streaming branch, for a read loop that ended with
`done: true`. -/
theorem onSendQA_sse (basePath q : JsString) (n : Nat) (st : ChatState)
    (ok : Bool) (contentType : Option JsString) (reads : List (List Byte)) (ending : StreamEnd)
    (fallback : FallbackOutcome)
    (hsse : isEventStream ok contentType = true) (hend : ending ≠ .failed) :
    onSendQA basePath q n st (.response ok contentType reads ending) fallback
      = if streamSilent reads then
          fallbackAfterStream basePath q n
            { beginTurn q st with
                requests := (beginTurn q st).requests ++ [.getStream basePath q],
                loading := false,
                messages := messagesAfterStream q st reads } fallback
        else
          appendActions n
            { beginTurn q st with
                requests := (beginTurn q st).requests ++ [.getStream basePath q],
                loading := false,
                messages := messagesAfterStream q st reads } := by
  have hflags := readLoop_flags (beginTurn q st).assistantIndex (beginTurn q st).messages reads
  simp only [onSendQA, hsse, if_true, sseBranch]
  rw [streamSilent_eq reads, ← hflags.1, ← hflags.2]
  cases ending with
  | failed => exact absurd rfl hend
  | closed => rfl
  | cancelled => rfl

/-- The turn on the branch for responses that are not event streams. -/
theorem onSendQA_nonSse (basePath q : JsString) (n : Nat) (st : ChatState)
    (ok : Bool) (contentType : Option JsString) (reads : List (List Byte)) (ending : StreamEnd)
    (fallback : FallbackOutcome) (hsse : isEventStream ok contentType = false) :
    onSendQA basePath q n st (.response ok contentType reads ending) fallback
      = nonSseBranch basePath q n
          { beginTurn q st with
              requests := (beginTurn q st).requests ++ [.getStream basePath q] } fallback := by
  simp [onSendQA, hsse]

/-- The slot text at the end of a turn whose fallback request was issued and
answered with the JSON value `data`, for which `data.answer || marker` is `t`. -/
theorem slotText_after_fallback (basePath q : JsString) (n : Nat) (st : ChatState)
    (ok : Bool) (contentType : Option JsString) (reads : List (List Byte)) (ending : StreamEnd)
    (data t : Json) (ht : answerOrMarker data = some t)
    (hpath : isEventStream ok contentType = false ∨
      (isEventStream ok contentType = true ∧ ending ≠ .failed ∧ streamSilent reads = true)) :
    slotText
      (onSendQA basePath q n st (.response ok contentType reads ending)
        (.response (some data))).messages (st.messages.length + 1) = some t := by
  rcases hpath with hns | ⟨hsse, hend, hsil⟩
  · rw [onSendQA_nonSse _ _ _ _ _ _ _ _ _ hns]
    simp only [nonSseBranch, applyAnswer, ht, appendActions]
    rw [updateAt_turn_slot]
    exact slotText_turn_slot _ _ _ _
  · rw [onSendQA_sse _ _ _ _ _ _ _ _ _ hsse hend, if_pos hsil,
      messagesAfterStream_of_silent q st reads hsil]
    simp only [fallbackAfterStream, applyAnswer, ht, appendActions]
    rw [updateAt_turn_slot]
    exact slotText_turn_slot _ _ _ _

/-- C16 as stated fails: the fallback body has the `answer` field, equal to the
empty string, and the slot is set to the no-response marker, not to that
answer. -/
theorem empty_answer_gives_marker :
    emptyAnswer.getField "answer" = some (.str []) ∧
    slotText
      (onSendQA "/docs".toList "q".toList 1 initialChatState
        (.response true plainType [] .closed) (.response (some emptyAnswer))).messages 2
      = some (.str "(응답 없음)".toList) ∧
    ¬ (slotText
      (onSendQA "/docs".toList "q".toList 1 initialChatState
        (.response true plainType [] .closed) (.response (some emptyAnswer))).messages 2
      = some (.str [])) := by
  have h : slotText
      (onSendQA "/docs".toList "q".toList 1 initialChatState
        (.response true plainType [] .closed) (.response (some emptyAnswer))).messages 2
      = some (.str "(응답 없음)".toList) := rfl
  refine ⟨rfl, h, ?_⟩
  rw [h]
  intro hcontra
  have h2 : "(응답 없음)".toList = ([] : JsString) := by
    injection hcontra with h1
    injection h1
  exact absurd h2 (by decide)

theorem slotRenders_turn_slot (msgs : List Msg) (a b : Msg) :
    slotRenders (msgs ++ [a, b]) ((msgs.length + 1 : Nat) : Int) = b.renders := by
  unfold slotRenders
  rw [if_neg (by omega)]
  simp only [Int.toNat_ofNat]
  rw [List.get?_eq_getElem?, List.getElem?_append_right (by omega)]
  simp

/-- The render after the fallback update succeeds when the text written into
the slot is one React can render. -/
theorem renderError_after_fallback (basePath q : JsString) (n : Nat) (st : ChatState)
    (ok : Bool) (contentType : Option JsString) (reads : List (List Byte)) (ending : StreamEnd)
    (data t : Json) (ht : answerOrMarker data = some t)
    (hpath : isEventStream ok contentType = false ∨
      (isEventStream ok contentType = true ∧ ending ≠ .failed ∧ streamSilent reads = true)) :
    (onSendQA basePath q n st (.response ok contentType reads ending)
        (.response (some data))).renderError = (st.renderError || !t.renderable) := by
  have hrender : slotRenders
      (st.messages ++
        [textMsg "user" q, { textMsg "assistant" thinking with text := some t }])
      (beginTurn q st).assistantIndex = t.renderable := by
    rw [beginTurn_assistantIndex, slotRenders_turn_slot]
    rfl
  have hre : (beginTurn q st).renderError = st.renderError := rfl
  rcases hpath with hns | ⟨hsse, hend, hsil⟩
  · rw [onSendQA_nonSse _ _ _ _ _ _ _ _ _ hns]
    simp only [nonSseBranch, applyAnswer, ht, appendActions]
    rw [updateAt_turn_slot, hrender, hre]
  · rw [onSendQA_sse _ _ _ _ _ _ _ _ _ hsse hend, if_pos hsil,
      messagesAfterStream_of_silent q st reads hsil]
    simp only [fallbackAfterStream, applyAnswer, ht, appendActions]
    rw [updateAt_turn_slot, hrender, hre]

/-- An answer that is an object is stored in the slot, and the render that
follows throws. -/
theorem object_answer_render_error :
    (onSendQA "/docs".toList "q".toList 1 initialChatState
      (.response true plainType [] .closed) (.response (some objectAnswer))).renderError
      = true := by
  decide

/-- C16, amended: on the non-event-stream path and on the fallback after a
stream without payload or terminal marker, for every fallback response whose
body is a JSON value other than `null`: when the `answer` field is present,
truthy and a value the page can render (a string, a number, a boolean or an
array of such values, not an object), the turn's slot text is that answer
itself; when the field is present but falsy (such as the empty string) or
absent, the slot text is the marker `(응답 없음)`; in each of these cases the
render after the update does not throw. -/
theorem fallback_text_is_answer_or_marker (basePath q : JsString) (n : Nat) (st : ChatState)
    (ok : Bool) (contentType : Option JsString) (reads : List (List Byte)) (ending : StreamEnd)
    (data : Json)
    (hpath : isEventStream ok contentType = false ∨
      (isEventStream ok contentType = true ∧ ending ≠ .failed ∧ streamSilent reads = true)) :
    (∀ v, data.getField "answer" = some v → v.truthy = true → v.renderable = true →
      slotText
        (onSendQA basePath q n st (.response ok contentType reads ending)
          (.response (some data))).messages (st.messages.length + 1) = some v ∧
      (onSendQA basePath q n st (.response ok contentType reads ending)
          (.response (some data))).renderError = st.renderError) ∧
    (∀ v, data.getField "answer" = some v → v.truthy = false →
      slotText
        (onSendQA basePath q n st (.response ok contentType reads ending)
          (.response (some data))).messages (st.messages.length + 1)
        = some (.str noResponse) ∧
      (onSendQA basePath q n st (.response ok contentType reads ending)
          (.response (some data))).renderError = st.renderError) ∧
    (data.getField "answer" = none → ¬ data = .null →
      slotText
        (onSendQA basePath q n st (.response ok contentType reads ending)
          (.response (some data))).messages (st.messages.length + 1)
        = some (.str noResponse) ∧
      (onSendQA basePath q n st (.response ok contentType reads ending)
          (.response (some data))).renderError = st.renderError) := by
  have hobj : ∀ v, data.getField "answer" = some v → ∀ t,
      (if v.truthy then some v else some (.str noResponse)) = some t →
      answerOrMarker data = some t := by
    intro v hv t ht
    cases data with
    | obj fields => simpa [answerOrMarker, hv] using ht
    | null => simp [Json.getField] at hv
    | bool b => simp [Json.getField] at hv
    | num k => simp [Json.getField] at hv
    | str x => simp [Json.getField] at hv
    | arr items => simp [Json.getField] at hv
  have hboth : ∀ t, answerOrMarker data = some t → t.renderable = true →
      slotText
        (onSendQA basePath q n st (.response ok contentType reads ending)
          (.response (some data))).messages (st.messages.length + 1) = some t ∧
      (onSendQA basePath q n st (.response ok contentType reads ending)
          (.response (some data))).renderError = st.renderError := by
    intro t ht hr
    refine ⟨slotText_after_fallback basePath q n st ok contentType reads ending data t ht hpath,
      ?_⟩
    rw [renderError_after_fallback basePath q n st ok contentType reads ending data t ht hpath,
      hr]
    simp
  refine ⟨?_, ?_, ?_⟩
  · intro v hv htr hre
    exact hboth v (hobj v hv v (by simp [htr])) hre
  · intro v hv hfa
    exact hboth _ (hobj v hv _ (by simp [hfa])) rfl
  · intro hnone hnn
    have hm : answerOrMarker data = some (.str noResponse) := by
      cases data with
      | null => exact absurd rfl hnn
      | obj fields => simp [answerOrMarker, hnone]
      | bool b => simp [answerOrMarker, Json.getField]
      | num k => simp [answerOrMarker, Json.getField]
      | str x => simp [answerOrMarker, Json.getField]
      | arr items => simp [answerOrMarker, Json.getField]
    exact hboth _ hm rfl

/-- Instances of `fallback_text_is_answer_or_marker`: after a stream that
delivered nothing, the answer `42` is shown and rendered; on the
non-event-stream path, a body without `answer` gives the marker. -/
theorem fallback_text_is_answer_or_marker_witness :
    (slotText
      (onSendQA "/docs".toList "q".toList 1 initialChatState
        (.response true eventStreamType [] .cancelled) (.response (some answer42))).messages 2
      = some (.str "42".toList) ∧
     (onSendQA "/docs".toList "q".toList 1 initialChatState
        (.response true eventStreamType [] .cancelled) (.response (some answer42))).renderError
      = false) ∧
    slotText
      (onSendQA "/docs".toList "q".toList 1 initialChatState
        (.response true plainType [] .closed) (.response (some (.obj [])))).messages 2
      = some (.str "(응답 없음)".toList) :=
  ⟨(fallback_text_is_answer_or_marker "/docs".toList "q".toList 1 initialChatState true
      eventStreamType [] .cancelled answer42
      (Or.inr ⟨by decide, by decide, by decide⟩)).1 (.str "42".toList) rfl rfl rfl,
   ((fallback_text_is_answer_or_marker "/docs".toList "q".toList 1 initialChatState true
      plainType [] .closed (.obj []) (Or.inl (by decide))).2.2 rfl (fun h => by cases h)).1⟩

/-! ## Theorems: the port, the poll timer and the command resolution (main.js) -/

theorem orDefault_ne_empty (value : Option String) (fallback : String) (h : fallback ≠ "") :
    orDefault value fallback ≠ "" := by
  unfold orDefault
  cases value with
  | none => exact h
  | some v =>
    by_cases hv : v = ""
    · simpa [hv] using h
    · simp [hv]

theorem orDefault_some_of_ne (v fallback : String) (h : v ≠ "") :
    orDefault (some v) fallback = v := by
  simp [orDefault, h]

theorem childEnv_port (env : Env) : envGet (childEnv env) "PORT" = some (BACKEND_PORT env) := by
  simp [envGet, childEnv, List.lookup]

theorem backendSpawnCall_env (cfg : HostEnv) : (backendSpawnCall cfg).env = childEnv cfg.env := by
  unfold backendSpawnCall
  split <;> rfl

/-- C18: for every process environment, the `PORT` passed to the backend, the
port in the liveness URL and the port in every URL built by the renderer's
`api` helper (in a renderer whose `window.odin` is the preload's object) are
the same string, `BACKEND_PORT`: the value of the environment variable when it
is set and not empty, and `8765` when it is absent. -/
theorem port_agreement (cfg : HostEnv) (p : String) :
    envGet (backendSpawnCall cfg).env "PORT" = some (BACKEND_PORT cfg.env) ∧
    healthUrl cfg.env = "http://127.0.0.1:" ++ BACKEND_PORT cfg.env ++ "/health" ∧
    api (rendererPort cfg.env) p = "http://127.0.0.1:" ++ BACKEND_PORT cfg.env ++ p ∧
    (∀ v, envGet cfg.env "BACKEND_PORT" = some v → v ≠ "" → BACKEND_PORT cfg.env = v) ∧
    (envGet cfg.env "BACKEND_PORT" = none → BACKEND_PORT cfg.env = "8765") := by
  refine ⟨?_, rfl, ?_, ?_, ?_⟩
  · rw [backendSpawnCall_env]
    exact childEnv_port cfg.env
  · have hne := orDefault_ne_empty (envGet cfg.env "BACKEND_PORT") "8765" (by decide)
    have hport : rendererPort cfg.env = BACKEND_PORT cfg.env := by
      exact orDefault_some_of_ne _ _ hne
    rw [hport]
    rfl
  · intro v hv hne
    simp [BACKEND_PORT, orDefault, hv, hne]
  · intro hnone
    simp [BACKEND_PORT, orDefault, hnone]

/-- Instances of `port_agreement`: with `BACKEND_PORT=9000` every port is
`9000`; without it every port is `8765`. -/
theorem port_agreement_witness :
    BACKEND_PORT [("BACKEND_PORT", "9000")] = "9000" ∧
    api (rendererPort [("BACKEND_PORT", "9000")]) "/qa" = "http://127.0.0.1:9000/qa" ∧
    BACKEND_PORT packagedLinux.env = "8765" ∧
    healthUrl packagedLinux.env = "http://127.0.0.1:8765/health" :=
  ⟨(port_agreement { packagedLinux with env := [("BACKEND_PORT", "9000")] } "/qa").2.2.2.1
      "9000" (by decide) (by decide),
   ((port_agreement { packagedLinux with env := [("BACKEND_PORT", "9000")] } "/qa").2.2.1).trans
      (by decide),
   (port_agreement packagedLinux "/qa").2.2.2.2 (by decide),
   ((port_agreement packagedLinux "/qa").2.1).trans (by decide)⟩

theorem timersOwned_of_nil (s : MainState) (h : s.activeTimers = []) : TimersOwned s := by
  unfold TimersOwned
  rw [h]
  trivial

theorem timersOwned_length (s : MainState) (h : TimersOwned s) : s.activeTimers.length ≤ 1 := by
  unfold TimersOwned at h
  match hl : s.activeTimers, h with
  | [], _ => simp
  | [t], _ => simp
  | _ :: _ :: _, h => exact absurd h (by simp)

/-- Under `TimersOwned`, the cancel statement leaves no timer scheduled. -/
theorem clearHealthInterval_timers (s : MainState) (h : TimersOwned s) :
    (clearHealthInterval s).activeTimers = [] := by
  unfold TimersOwned at h
  unfold clearHealthInterval clearInterval
  match hl : s.activeTimers, h with
  | [], _ =>
    cases hi : s.healthInterval <;> simp [hl]
  | [t], h =>
    simp [h.1]
  | _ :: _ :: _, h => exact absurd h (by simp)

theorem startHealthPolling_timers (s : MainState) (h : TimersOwned s) :
    (startHealthPolling s).activeTimers = [(s.nextTimerId, 1000)] ∧
    (startHealthPolling s).nextTimerId = s.nextTimerId + 1 := by
  have hc := clearHealthInterval_timers { s with backendReady := false } h
  have hn : (clearHealthInterval { s with backendReady := false }).nextTimerId
      = s.nextTimerId := by
    unfold clearHealthInterval clearInterval
    cases hi : s.healthInterval <;> simp [hi]
  simp only [startHealthPolling, setInterval, issueHealthRequest]
  rw [hc, hn]
  simp

theorem timersOwned_startHealthPolling (s : MainState) (h : TimersOwned s) :
    TimersOwned (startHealthPolling s) := by
  have ht := startHealthPolling_timers s h
  unfold TimersOwned
  rw [ht.1]
  exact ⟨startHealthPolling_healthInterval s, by rw [ht.2]; exact Nat.lt_succ_self _⟩

theorem timersOwned_clearHealthInterval (s : MainState) (h : TimersOwned s) :
    TimersOwned (clearHealthInterval s) :=
  timersOwned_of_nil _ (clearHealthInterval_timers s h)

theorem timersOwned_check (s : MainState) (r : Liveness) (h : TimersOwned s) :
    TimersOwned (checkBackendHealthOnce s r).1 := by
  have hreq : TimersOwned (issueHealthRequest s) := h
  cases hb : s.backendReady with
  | true =>
    rw [checkBackendHealthOnce, resume_of_backendReady _ _ (by simpa [issueHealthRequest])]
    exact hreq
  | false =>
    cases hr : r.readyBody with
    | none =>
      rw [checkBackendHealthOnce, resume_of_not_ready _ (by simp [Liveness.isReady, hr])]
      exact hreq
    | some d =>
      rw [checkBackendHealthOnce, resume_of_ready _ hr (by simpa [issueHealthRequest])]
      cases hw : s.mainWindow with
      | destroyed =>
        simp only [issueHealthRequest, hw]
        exact h
      | live =>
        simp only [issueHealthRequest, hw]
        exact timersOwned_clearHealthInterval _ h
      | absent =>
        simp only [issueHealthRequest, hw]
        exact timersOwned_clearHealthInterval _ h

theorem timersOwned_runOps (s : MainState) (ops : List MainOp) (h : TimersOwned s) :
    TimersOwned (runOps s ops) := by
  induction ops generalizing s with
  | nil => exact h
  | cons op rest ih =>
    show TimersOwned (runOps (applyOp s op) rest)
    apply ih
    cases op with
    | start => exact timersOwned_startHealthPolling s h
    | check r => exact timersOwned_check s r h
    | pull => exact h

/-- C19: from every prior state (whatever `backendReady` is, with a poll timer
scheduled or not, the timers scheduled being at most the one in
`healthInterval`), `startHealthPolling` sets `backendReady` to false, cancels
the timer that was scheduled, issues exactly one liveness request and leaves
exactly one timer scheduled, the new one held in `healthInterval`, with period
1000 ms; and after any further calls of `startHealthPolling`, liveness checks
and pull queries, at most one timer is scheduled. -/
theorem start_polling_leaves_one_timer (s : MainState) (h : TimersOwned s) :
    (startHealthPolling s).backendReady = false ∧
    (∀ t ∈ s.activeTimers, t ∉ (startHealthPolling s).activeTimers) ∧
    (startHealthPolling s).healthRequests = s.healthRequests + 1 ∧
    (startHealthPolling s).activeTimers = [(s.nextTimerId, 1000)] ∧
    (startHealthPolling s).healthInterval = some s.nextTimerId ∧
    (∀ ops : List MainOp, (runOps (startHealthPolling s) ops).activeTimers.length ≤ 1) ∧
    (∀ n : Nat, (runOps s (List.replicate (n + 1) MainOp.start)).activeTimers.length = 1) := by
  have ht := startHealthPolling_timers s h
  refine ⟨startHealthPolling_backendReady s, ?_, ?_, ht.1, startHealthPolling_healthInterval s,
    ?_, ?_⟩
  · intro t hts hmem
    rw [ht.1, List.mem_singleton] at hmem
    unfold TimersOwned at h
    match hl : s.activeTimers, h with
    | [], _ => rw [hl] at hts; exact absurd hts (by simp)
    | [u], h =>
      rw [hl, List.mem_singleton] at hts
      have h1 : u.1 < s.nextTimerId := h.2
      rw [← hts, hmem] at h1
      exact absurd h1 (Nat.lt_irrefl _)
    | _ :: _ :: _, h => exact absurd h (by simp)
  · simp only [startHealthPolling, setInterval, issueHealthRequest, clearHealthInterval,
      clearInterval]
    cases s.healthInterval <;> rfl
  · intro ops
    exact timersOwned_length _ (timersOwned_runOps _ ops (timersOwned_startHealthPolling s h))
  · intro n
    have key : ∀ (k : Nat) (t : MainState), TimersOwned t →
        (runOps t (List.replicate (k + 1) MainOp.start)).activeTimers.length = 1 := by
      intro k
      induction k with
      | zero =>
        intro t htown
        show (startHealthPolling t).activeTimers.length = 1
        rw [(startHealthPolling_timers t htown).1]
        rfl
      | succ j ih =>
        intro t htown
        show (runOps (startHealthPolling t) (List.replicate (j + 1) MainOp.start)).activeTimers.length
          = 1
        exact ih _ (timersOwned_startHealthPolling t htown)
    exact key n s h

/-- An instance of `start_polling_leaves_one_timer`: calling
`startHealthPolling` while the timer of an earlier call is scheduled cancels
timer 0 and leaves timer 1, with period 1000, as the only one. -/
theorem start_polling_leaves_one_timer_witness :
    TimersOwned (startHealthPolling windowOpenState) ∧
    (startHealthPolling windowOpenState).activeTimers = [(0, 1000)] ∧
    (startHealthPolling (startHealthPolling windowOpenState)).activeTimers = [(1, 1000)] ∧
    (startHealthPolling (startHealthPolling windowOpenState)).healthRequests = 2 :=
  ⟨⟨rfl, by decide⟩,
   rfl,
   (start_polling_leaves_one_timer (startHealthPolling windowOpenState)
      ⟨rfl, by decide⟩).2.2.2.1,
   (start_polling_leaves_one_timer (startHealthPolling windowOpenState)
      ⟨rfl, by decide⟩).2.2.1⟩

theorem childEnv_other (env : Env) (k : String) (hk : k ∉ overriddenKeys) :
    envGet (childEnv env) k = envGet env k := by
  simp only [overriddenKeys, List.mem_cons, List.mem_singleton, List.not_mem_nil, or_false,
    not_or] at hk
  obtain ⟨h1, h2, h3, h4, h5, h6⟩ := hk
  have e1 : (k == "PORT") = false := by simpa using h1
  have e2 : (k == "PYTHONIOENCODING") = false := by simpa using h2
  have e3 : (k == "PYTHONUTF8") = false := by simpa using h3
  have e4 : (k == "PYTHONLEGACYWINDOWSSTDIO") = false := by simpa using h4
  have e5 : (k == "LANG") = false := by simpa using h5
  have e6 : (k == "LC_ALL") = false := by simpa using h6
  simp only [envGet, childEnv, List.cons_append, List.nil_append, List.lookup, e1, e2, e3, e4,
    e5, e6]
  rfl

/-- C20: the command, argument list and working directory that
`startPythonBackend` passes to `spawn` depend on the mode, the platform and
the two base directories only. In development mode the command is
`.venv_odin/Scripts/python.exe` under the project root on `win32` and
`.venv_odin/bin/python` under it elsewhere, the only argument is
`backend/server.py` under the project root and the working directory is the
project root; in packaged mode the command is `python-dist/odin-backend.exe`
under the resources path on `win32` and `python-dist/odin-backend` elsewhere,
there is no argument and the working directory is `python-dist` under the
resources path. The child environment has `PORT` equal to the constant
`BACKEND_PORT`, the five other overridden variables at their literal values,
and every other variable as in the base environment. -/
theorem backend_command_resolution (cfg : HostEnv) :
    (isDev cfg = true →
      (backendSpawnCall cfg).command
        = (if cfg.platform = "win32"
            then cfg.dirname.dropLast ++ [".venv_odin", "Scripts", "python.exe"]
            else cfg.dirname.dropLast ++ [".venv_odin", "bin", "python"]) ∧
      (backendSpawnCall cfg).args = [cfg.dirname.dropLast ++ ["backend", "server.py"]] ∧
      (backendSpawnCall cfg).cwd = cfg.dirname.dropLast) ∧
    (isDev cfg = false →
      (backendSpawnCall cfg).command
        = (if cfg.platform = "win32"
            then cfg.resourcesPath ++ ["python-dist", "odin-backend.exe"]
            else cfg.resourcesPath ++ ["python-dist", "odin-backend"]) ∧
      (backendSpawnCall cfg).args = [] ∧
      (backendSpawnCall cfg).cwd = cfg.resourcesPath ++ ["python-dist"]) ∧
    (envGet (backendSpawnCall cfg).env "PORT" = some (BACKEND_PORT cfg.env) ∧
      envGet (backendSpawnCall cfg).env "PYTHONIOENCODING" = some "utf-8" ∧
      envGet (backendSpawnCall cfg).env "PYTHONUTF8" = some "1" ∧
      envGet (backendSpawnCall cfg).env "PYTHONLEGACYWINDOWSSTDIO" = some "0" ∧
      envGet (backendSpawnCall cfg).env "LANG" = some "ko_KR.UTF-8" ∧
      envGet (backendSpawnCall cfg).env "LC_ALL" = some "ko_KR.UTF-8") ∧
    (∀ k, k ∉ overriddenKeys →
      envGet (backendSpawnCall cfg).env k = envGet cfg.env k) ∧
    (∀ other : HostEnv, isDev other = isDev cfg → other.platform = cfg.platform →
      other.dirname = cfg.dirname → other.resourcesPath = cfg.resourcesPath →
      (backendSpawnCall other).command = (backendSpawnCall cfg).command ∧
      (backendSpawnCall other).args = (backendSpawnCall cfg).args ∧
      (backendSpawnCall other).cwd = (backendSpawnCall cfg).cwd) := by
  refine ⟨?_, ?_, ?_, ?_, ?_⟩
  · intro hdev
    by_cases hw : cfg.platform = "win32" <;>
      simp [backendSpawnCall, hdev, hw, pathJoin]
  · intro hdev
    by_cases hw : cfg.platform = "win32" <;>
      simp [backendSpawnCall, hdev, hw, pathJoin]
  · rw [backendSpawnCall_env]
    simp [envGet, childEnv, List.lookup]
  · intro k hk
    rw [backendSpawnCall_env]
    exact childEnv_other cfg.env k hk
  · intro other hmode hplat hdir hres
    cases hdev : isDev cfg <;>
      simp [backendSpawnCall, hmode, hdev, hplat, hdir, hres]

/-- Instances of `backend_command_resolution`: a development checkout on
Windows and a packaged installation on Linux. -/
theorem backend_command_resolution_witness :
    (backendSpawnCall devWindows).command
      = ["C:", "odin", ".venv_odin", "Scripts", "python.exe"] ∧
    (backendSpawnCall devWindows).args = [["C:", "odin", "backend", "server.py"]] ∧
    envGet (backendSpawnCall devWindows).env "PATH" = some "C:/bin" ∧
    envGet (backendSpawnCall devWindows).env "PORT" = some "9000" ∧
    (backendSpawnCall packagedLinux).command
      = ["opt", "odin", "resources", "python-dist", "odin-backend"] ∧
    (backendSpawnCall packagedLinux).args = [] :=
  ⟨(((backend_command_resolution devWindows).1 (by decide)).1).trans (by decide),
   ((backend_command_resolution devWindows).1 (by decide)).2.1,
   ((backend_command_resolution devWindows).2.2.2.1 "PATH" (by decide)).trans (by decide),
   ((backend_command_resolution devWindows).2.2.1.1).trans (by decide),
   (((backend_command_resolution packagedLinux).2.1 (by decide)).1).trans (by decide),
   ((backend_command_resolution packagedLinux).2.1 (by decide)).2.1⟩

/-! ## Theorems: a backend that cannot be spawned (main.js) -/

/-- C17 as stated fails: when the failure is reported through the child's
`error` event, `startPythonBackend` does not fail but returns; and when `spawn`
throws, so that `startPythonBackend` does fail, the `ready` handler is left by
the same exception and completes none of its steps. In neither case does
`startPythonBackend` fail while the `ready` handler goes on. -/
theorem launch_failure_not_returned :
    (startPythonBackend packagedLinux initialHostState .errorEvent).isSome = true ∧
    (startPythonBackend packagedLinux initialHostState .threw).isNone = true ∧
    (onReady packagedLinux initialHostState .threw).isNone = true := by
  decide

/-- C17, amended: when `spawn` returns a child object, also when the failure
to start it arrives afterwards as the child's `error` event,
`startPythonBackend` returns with `pyProc` set to the call made for the
attempted command and with a listener for `exit` only; the `ready` handler
then creates the window, starts health polling (readiness false, one request
issued, the poll timer scheduled) and registers its four IPC handlers; and
readiness stays false for every sequence of liveness outcomes that are not
ready, as are all outcomes when no backend runs. -/
theorem ready_handler_after_spawn_error (cfg : HostEnv) (h : HostState) (spawn : SpawnOutcome)
    (hspawn : spawn ≠ .threw) :
    (∃ h1, startPythonBackend cfg h spawn = some h1 ∧
      h1.pyProc = some (backendSpawnCall cfg) ∧ h1.pyProcListeners = ["exit"] ∧
      h1.main = h.main) ∧
    (∃ h2, onReady cfg h spawn = some h2 ∧
      h2.pyProc = some (backendSpawnCall cfg) ∧
      h2.main.mainWindow = .live ∧
      h2.main.backendReady = false ∧
      h2.main.healthRequests = h.main.healthRequests + 1 ∧
      h2.main.healthInterval = some h.main.nextTimerId ∧
      (h.main.nextTimerId, 1000) ∈ h2.main.activeTimers ∧
      h2.ipcHandlers = h.ipcHandlers ++
        ["select-directory", "get-backend-health", "open-file-location", "get-font-path"] ∧
      (∀ rs : List Liveness, (∀ x ∈ rs, x.isReady = false) →
        (runChecks h2.main rs).backendReady = false ∧
        (getBackendHealth (runChecks h2.main rs)).2 = { ready := false })) := by
  have hstart : startPythonBackend cfg h spawn
      = some { h with pyProc := some (backendSpawnCall cfg), pyProcListeners := ["exit"] } := by
    cases spawn with
    | threw => exact absurd rfl hspawn
    | started => rfl
    | errorEvent => rfl
  refine ⟨⟨_, hstart, rfl, rfl, rfl⟩, ?_⟩
  simp only [onReady, hstart, createWindow]
  refine ⟨_, rfl, rfl, ?_, ?_, ?_, ?_, ?_, rfl, ?_⟩
  · exact startHealthPolling_mainWindow _
  · exact startHealthPolling_backendReady _
  · simp only [startHealthPolling, setInterval, issueHealthRequest, clearHealthInterval,
      clearInterval]
    cases h.main.healthInterval <;> rfl
  · exact startHealthPolling_healthInterval _
  · exact startHealthPolling_timer_mem { h.main with mainWindow := .live }
  · intro rs hrs
    have hb : (runChecks (startHealthPolling { h.main with mainWindow := .live }) rs).backendReady
        = false := by
      rw [runChecks_not_ready _ _ hrs]
      exact startHealthPolling_backendReady _
    exact ⟨hb, by
      show ({ ready := (runChecks (startHealthPolling { h.main with mainWindow := .live })
        rs).backendReady } : Readiness) = _
      rw [hb]⟩

/-- An instance of `ready_handler_after_spawn_error`: the packaged executable is
missing, the `ready` handler still completes, and after five failed checks the
pull query answers `ready = false` (Scenario E). -/
theorem ready_handler_after_spawn_error_witness :
    ∃ h2, onReady packagedLinux initialHostState .errorEvent = some h2 ∧
      h2.main.mainWindow = .live ∧
      h2.main.healthInterval = some 0 ∧
      h2.ipcHandlers
        = ["select-directory", "get-backend-health", "open-file-location", "get-font-path"] ∧
      (getBackendHealth (runChecks h2.main failedOutcomes)).2 = { ready := false } := by
  obtain ⟨h2, hready, _, hwin, _, _, htimer, _, hhandlers, hchecks⟩ :=
    (ready_handler_after_spawn_error packagedLinux initialHostState .errorEvent
      (by decide)).2
  refine ⟨h2, hready, hwin, htimer, hhandlers, (hchecks failedOutcomes ?_).2⟩
  intro x hx
  simp [failedOutcomes] at hx
  rcases hx with rfl | rfl | rfl | rfl | rfl <;> rfl

/-! ## Theorems: the terminal marker and the unparsed tail (ChatPage.jsx) -/

/-- The read loop from the initial locals, as the complete frames of the
stream processed in order; the last piece of the split stays in `acc`. -/
theorem readLoop_eq_frames (ti : Int) (msgs : List Msg) (reads : List (List Byte)) :
    readLoop ti (StreamLocals.init, msgs) reads =
      ({ ((streamFrames reads).foldl (processFrame ti) (StreamLocals.init, msgs)).1 with
          decoder := (TextDecoder.fresh.decode reads.flatten).1,
          acc := (splitBlank (TextDecoder.fresh.decode reads.flatten).2).getLast?.getD [] },
        ((streamFrames reads).foldl (processFrame ti) (StreamLocals.init, msgs)).2) := by
  rw [readLoop_eq_one_read, readChunk_eq]
  rfl

/-- A stream none of whose frames has a payload leaves the messages of the
turn as they were. -/
theorem messagesAfterStream_of_no_payload (q : JsString) (st : ChatState)
    (reads : List (List Byte)) (h : ∀ f ∈ streamFrames reads, framePayload f = []) :
    messagesAfterStream q st reads = (beginTurn q st).messages := by
  unfold messagesAfterStream
  rw [readLoop_eq_frames]
  apply foldl_processFrame_silent
  intro ev hev
  rw [h ev hev]
  rfl

theorem streamSilent_false_of_done (reads : List (List Byte))
    (h : ∃ f ∈ streamFrames reads, ∃ l ∈ splitLines f, startsWith "event: done".toList l = true) :
    streamSilent reads = false := by
  have hany : (streamFrames reads).any frameDone = true := by
    obtain ⟨f, hf, l, hl, hst⟩ := h
    rw [List.any_eq_true]
    refine ⟨f, hf, ?_⟩
    rw [frameDone_eq_spec, List.any_eq_true]
    exact ⟨l, hl, hst⟩
  rw [streamSilent_eq, hany]
  simp

/-- C21: for every event-stream response whose complete frames contain a line
beginning with `event: done` and no frame with a non-empty payload, `onSend`
issues no fallback request and the turn's slot still shows the thinking
placeholder at the end of the turn; when the read loop ends with `done: true`
(stream closed or read cancelled), the messages at the end are the list of the
start followed by the user message, the untouched placeholder and the actions
message, and no toast is pushed. -/
theorem done_marker_without_payload (basePath q : JsString) (n : Nat) (st : ChatState)
    (ok : Bool) (contentType : Option JsString) (reads : List (List Byte)) (ending : StreamEnd)
    (fallback : FallbackOutcome)
    (hsse : isEventStream ok contentType = true)
    (hdone : ∃ f ∈ streamFrames reads, ∃ l ∈ splitLines f,
      startsWith "event: done".toList l = true)
    (hnone : ∀ f ∈ streamFrames reads, framePayload f = []) :
    (onSendQA basePath q n st (.response ok contentType reads ending) fallback).requests
      = st.requests ++ [.getStream basePath q] ∧
    slotText
      (onSendQA basePath q n st (.response ok contentType reads ending) fallback).messages
      (st.messages.length + 1) = some (.str thinking) ∧
    (ending ≠ .failed →
      (onSendQA basePath q n st (.response ok contentType reads ending) fallback).messages
        = st.messages ++
            [textMsg "user" q, textMsg "assistant" thinking, actionsMsg n] ∧
      (onSendQA basePath q n st (.response ok contentType reads ending) fallback).toasts
        = st.toasts) := by
  have hmsgs := messagesAfterStream_of_no_payload q st reads hnone
  have hsil := streamSilent_false_of_done reads hdone
  have hslot : ∀ extra : List Msg,
      slotText (st.messages ++ [textMsg "user" q, textMsg "assistant" thinking] ++ extra)
        (st.messages.length + 1) = some (.str thinking) :=
    fun extra => slotText_turn_slot st.messages _ _ extra
  by_cases hend : ending = .failed
  · subst hend
    have hfail : onSendQA basePath q n st (.response ok contentType reads .failed) fallback
        = catchQA
            { beginTurn q st with
                requests := (beginTurn q st).requests ++ [.getStream basePath q],
                loading := false,
                messages := messagesAfterStream q st reads } := by
      simp only [onSendQA, hsse, if_true, sseBranch]
      rfl
    rw [hfail, hmsgs, beginTurn_messages]
    refine ⟨rfl, ?_, fun h => absurd rfl h⟩
    have := hslot []
    simpa [catchQA] using this
  · rw [onSendQA_sse _ _ _ _ _ _ _ _ _ hsse hend, hsil, hmsgs, beginTurn_messages]
    refine ⟨rfl, ?_, fun _ => ⟨?_, rfl⟩⟩
    · exact hslot [actionsMsg n]
    · simp [appendActions]

/-- An instance of `done_marker_without_payload`: the stream is the single frame
`event: done`; the streaming request is the only request and the turn ends
with the placeholder still showing, followed by the actions message. -/
theorem done_marker_without_payload_witness :
    (onSendQA "/docs".toList "q".toList 1 initialChatState
        (.response true eventStreamType [doneOnlyStream] .closed)
        (.response (some answer42))).requests = [.getStream "/docs".toList "q".toList] ∧
    slotText
      (onSendQA "/docs".toList "q".toList 1 initialChatState
        (.response true eventStreamType [doneOnlyStream] .closed)
        (.response (some answer42))).messages 2 = some (.str "생각 중…".toList) ∧
    (onSendQA "/docs".toList "q".toList 1 initialChatState
        (.response true eventStreamType [doneOnlyStream] .closed)
        (.response (some answer42))).messages
      = initialChatState.messages ++
          [textMsg "user" "q".toList, textMsg "assistant" thinking, actionsMsg 1] :=
  have h := done_marker_without_payload "/docs".toList "q".toList 1 initialChatState true
    eventStreamType [doneOnlyStream] .closed (.response (some answer42)) (by decide)
    ⟨"event: done".toList, by decide, "event: done".toList, by decide, by decide⟩
    (by decide)
  ⟨h.1, h.2.1, (h.2.2 (by decide)).1⟩

/-- The turn depends on the body of the response through its complete frames
only. -/
theorem onSendQA_of_same_frames (basePath q : JsString) (n : Nat) (st : ChatState)
    (ok : Bool) (contentType : Option JsString) (reads reads2 : List (List Byte))
    (ending : StreamEnd) (fallback : FallbackOutcome)
    (h : streamFrames reads2 = streamFrames reads) :
    onSendQA basePath q n st (.response ok contentType reads2 ending) fallback
      = onSendQA basePath q n st (.response ok contentType reads ending) fallback := by
  cases hsse : isEventStream ok contentType with
  | false => rw [onSendQA_nonSse _ _ _ _ _ _ _ _ _ hsse, onSendQA_nonSse _ _ _ _ _ _ _ _ _ hsse]
  | true =>
    simp only [onSendQA, hsse, if_true, sseBranch, readLoop_eq_frames, h]

theorem streamFrames_nil : streamFrames [] = [] := by decide

/-- A further read whose text, put after the carry-over, completes no frame
leaves the complete frames of the stream as they were. -/
theorem streamFrames_append_tail (reads : List (List Byte)) (tail : List Byte)
    (h : splitBlank
          ((splitBlank (TextDecoder.fresh.decode reads.flatten).2).getLast?.getD [] ++
            ((TextDecoder.fresh.decode reads.flatten).1.decode tail).2)
        = [(splitBlank (TextDecoder.fresh.decode reads.flatten).2).getLast?.getD [] ++
            ((TextDecoder.fresh.decode reads.flatten).1.decode tail).2]) :
    streamFrames (reads ++ [tail]) = streamFrames reads := by
  unfold streamFrames
  have hflat : (reads ++ [tail]).flatten = reads.flatten ++ tail := by simp
  rw [hflat, decode_append, splitBlank_append, h]
  simp

/-- C22: the text after the last blank-line delimiter is never parsed. The
loop computes a payload for the complete frames only and ends with the last
piece of the split still in `acc`; the turn is the same for any two streams
with the same complete frames, whatever follows their last delimiter, so a
further read whose text completes no frame changes nothing; and a
stream without any delimiter, such as `data: x` alone, gives the turn of the
empty stream: nothing is applied to the slot and, when the read loop ends with
`done: true`, the fallback request is issued exactly once. -/
theorem unterminated_tail_not_parsed (basePath q : JsString) (n : Nat) (st : ChatState)
    (ok : Bool) (contentType : Option JsString) (reads : List (List Byte)) (ending : StreamEnd)
    (fallback : FallbackOutcome) :
    (∀ (ti : Int) (msgs : List Msg),
      (readLoop ti (StreamLocals.init, msgs) reads).1.payloads
        = (streamFrames reads).map framePayload ∧
      (readLoop ti (StreamLocals.init, msgs) reads).1.acc
        = (splitBlank (TextDecoder.fresh.decode reads.flatten).2).getLast?.getD [] ∧
      (readLoop ti (StreamLocals.init, msgs) reads).1.done
        = (streamFrames reads).any frameDone) ∧
    (∀ reads2 : List (List Byte), streamFrames reads2 = streamFrames reads →
      onSendQA basePath q n st (.response ok contentType reads2 ending) fallback
        = onSendQA basePath q n st (.response ok contentType reads ending) fallback) ∧
    (∀ tail : List Byte,
      splitBlank
          ((splitBlank (TextDecoder.fresh.decode reads.flatten).2).getLast?.getD [] ++
            ((TextDecoder.fresh.decode reads.flatten).1.decode tail).2)
        = [(splitBlank (TextDecoder.fresh.decode reads.flatten).2).getLast?.getD [] ++
            ((TextDecoder.fresh.decode reads.flatten).1.decode tail).2] →
      onSendQA basePath q n st (.response ok contentType (reads ++ [tail]) ending) fallback
        = onSendQA basePath q n st (.response ok contentType reads ending) fallback) ∧
    (streamFrames reads = [] →
      onSendQA basePath q n st (.response ok contentType reads ending) fallback
        = onSendQA basePath q n st (.response ok contentType [] ending) fallback ∧
      messagesAfterStream q st reads = (beginTurn q st).messages ∧
      (isEventStream ok contentType = true → ending ≠ .failed →
        (onSendQA basePath q n st (.response ok contentType reads ending) fallback).requests
          = st.requests ++ [.getStream basePath q, .postQa basePath q])) := by
  refine ⟨?_, ?_, ?_, ?_⟩
  · intro ti msgs
    refine ⟨?_, ?_, (readLoop_flags ti msgs reads).2⟩
    · rw [readLoop_eq_frames]
      have h := foldl_processFrame_payloads ti (streamFrames reads) (StreamLocals.init, msgs)
      simpa [StreamLocals.init] using h
    · rw [readLoop_eq_frames]
  · intro reads2 h
    exact onSendQA_of_same_frames basePath q n st ok contentType reads reads2 ending fallback h
  · intro tail htail
    exact onSendQA_of_same_frames basePath q n st ok contentType reads (reads ++ [tail]) ending
      fallback (streamFrames_append_tail reads tail htail)
  · intro hnil
    have hnone : ∀ f ∈ streamFrames reads, framePayload f = [] := by
      intro f hf
      rw [hnil] at hf
      exact absurd hf (by simp)
    have hsil : streamSilent reads = true := by
      unfold streamSilent
      rw [hnil]
      rfl
    refine ⟨?_, messagesAfterStream_of_no_payload q st reads hnone, ?_⟩
    · exact (onSendQA_of_same_frames basePath q n st ok contentType reads [] ending fallback
        (by rw [hnil, streamFrames_nil])).symm
    · intro hsse hend
      rw [onSendQA_sse _ _ _ _ _ _ _ _ _ hsse hend, if_pos hsil, fallbackAfterStream_requests]
      have hreq : (beginTurn q st).requests = st.requests := rfl
      simp [hreq]

/-- Instances of `unterminated_tail_not_parsed`: the stream `data: x` without a
blank line has no complete frame, its text stays in `acc`, the turn is the
turn of the empty stream and the fallback request is issued; and the sample
stream followed by `data: lost` without a blank line gives the turn of the
sample stream alone. -/
theorem unterminated_tail_not_parsed_witness :
    streamFrames [unterminatedStream] = [] ∧
    (readLoop 2 (StreamLocals.init, turnMessages) [unterminatedStream]).1.payloads = [] ∧
    (readLoop 2 (StreamLocals.init, turnMessages) [unterminatedStream]).1.acc
      = "data: x".toList ∧
    onSendQA "/docs".toList "q".toList 1 initialChatState
        (.response true eventStreamType [unterminatedStream] .closed) (.response (some answer42))
      = onSendQA "/docs".toList "q".toList 1 initialChatState
        (.response true eventStreamType [] .closed) (.response (some answer42)) ∧
    (onSendQA "/docs".toList "q".toList 1 initialChatState
        (.response true eventStreamType [unterminatedStream] .closed)
        (.response (some answer42))).requests
      = [.getStream "/docs".toList "q".toList, .postQa "/docs".toList "q".toList] ∧
    onSendQA "/docs".toList "q".toList 1 initialChatState
        (.response true eventStreamType (sampleReads ++ [lostTail]) .closed)
        (.response (some answer42))
      = onSendQA "/docs".toList "q".toList 1 initialChatState
        (.response true eventStreamType sampleReads .closed) (.response (some answer42)) :=
  have h := unterminated_tail_not_parsed "/docs".toList "q".toList 1 initialChatState true
    eventStreamType [unterminatedStream] .closed (.response (some answer42))
  ⟨by decide,
   ((h.1 2 turnMessages).1).trans (by decide),
   ((h.1 2 turnMessages).2.1).trans (by decide),
   (h.2.2.2 (by decide)).1,
   (h.2.2.2 (by decide)).2.2 (by decide) (by decide),
   (unterminated_tail_not_parsed "/docs".toList "q".toList 1 initialChatState true
      eventStreamType sampleReads .closed (.response (some answer42))).2.2.1 lostTail
      (by decide)⟩

/-! ## Theorems: the streamed text at the end of a turn (ChatPage.jsx) -/

theorem processFrame_snd (ti : Int) (loc : StreamLocals) (msgs : List Msg) (ev : JsString) :
    (processFrame ti (loc, msgs) ev).2
      = if (framePayload ev).isEmpty then msgs
        else updateAt ti (applyPayload (framePayload ev)) msgs := by
  unfold processFrame
  by_cases hp : (framePayload ev).isEmpty = true <;> simp [hp]

/-- The frames of a stream, processed on the messages of a turn, leave the
list as it was but for the slot, to which the non-empty payloads have been
applied in order. -/
theorem foldl_processFrame_turn_slot (msgs : List Msg) (u : Msg) (evs : List JsString)
    (loc : StreamLocals) (m : Msg) :
    (evs.foldl (processFrame ((msgs.length + 1 : Nat) : Int)) (loc, msgs ++ [u, m])).2
      = msgs ++ [u, ((evs.map framePayload).filter (fun p => !p.isEmpty)).foldl
          (fun x p => applyPayload p x) m] := by
  induction evs generalizing loc m with
  | nil => rfl
  | cons ev rest ih =>
    rw [List.foldl_cons]
    by_cases hp : (framePayload ev).isEmpty = true
    · have h2 : processFrame ((msgs.length + 1 : Nat) : Int) (loc, msgs ++ [u, m]) ev
          = ((processFrame ((msgs.length + 1 : Nat) : Int) (loc, msgs ++ [u, m]) ev).1,
              msgs ++ [u, m]) := by
        unfold processFrame
        simp [hp]
      rw [h2, ih]
      simp [List.filter_cons, hp]
    · have h2 : processFrame ((msgs.length + 1 : Nat) : Int) (loc, msgs ++ [u, m]) ev
          = ((processFrame ((msgs.length + 1 : Nat) : Int) (loc, msgs ++ [u, m]) ev).1,
              msgs ++ [u, applyPayload (framePayload ev) m]) := by
        have hupd : updateAt ((msgs.length + 1 : Nat) : Int)
            (applyPayload (framePayload ev)) (msgs ++ [u, m])
            = msgs ++ [u, applyPayload (framePayload ev) m] := by
          rw [updateAt_natCast, mapAt_append_right]
          rfl
        refine Prod.ext rfl ?_
        show (processFrame ((msgs.length + 1 : Nat) : Int) (loc, msgs ++ [u, m]) ev).2
          = msgs ++ [u, applyPayload (framePayload ev) m]
        rw [processFrame_snd, if_neg hp]
        exact hupd
      rw [h2, ih]
      simp [List.filter_cons, hp]

/-- The messages when the read loop of a turn has ended: the list of the
start, the user message, and the slot with the non-empty payloads of the
stream applied to the placeholder in order. -/
theorem messagesAfterStream_eq (q : JsString) (st : ChatState) (reads : List (List Byte)) :
    messagesAfterStream q st reads
      = st.messages ++ [textMsg "user" q,
          (streamPayloads reads).foldl (fun x p => applyPayload p x)
            (textMsg "assistant" thinking)] := by
  unfold messagesAfterStream streamPayloads
  rw [readLoop_eq_frames, beginTurn_messages, beginTurn_assistantIndex]
  exact foldl_processFrame_turn_slot st.messages _ (streamFrames reads) _ _

theorem streamPayloads_ne_nil_iff (reads : List (List Byte)) :
    streamPayloads reads ≠ [] ↔
      (streamFrames reads).any (fun f => !(framePayload f).isEmpty) = true := by
  unfold streamPayloads
  induction streamFrames reads with
  | nil => simp
  | cons f rest ih =>
    by_cases hp : (framePayload f).isEmpty = true
    · simp [List.filter_cons, hp, ih]
    · simp [hp]

/-- The streamed text is kept: for every event-stream response whose read loop
ends with `done: true` and which carries some non-empty payload, no fallback
request is issued and the turn ends with the slot holding the payloads applied
in order to the placeholder, followed by the actions message; when no proper
non-empty prefix of the payloads concatenates to the placeholder text, the
slot text is the concatenation of the payloads. -/
theorem streamed_text_kept (basePath q : JsString) (n : Nat) (st : ChatState)
    (ok : Bool) (contentType : Option JsString) (reads : List (List Byte)) (ending : StreamEnd)
    (fallback : FallbackOutcome)
    (hsse : isEventStream ok contentType = true) (hend : ending ≠ .failed)
    (hany : streamPayloads reads ≠ []) :
    (onSendQA basePath q n st (.response ok contentType reads ending) fallback).requests
      = st.requests ++ [.getStream basePath q] ∧
    (onSendQA basePath q n st (.response ok contentType reads ending) fallback).messages
      = st.messages ++ [textMsg "user" q,
          (streamPayloads reads).foldl (fun x p => applyPayload p x)
            (textMsg "assistant" thinking),
          actionsMsg n] ∧
    ((∀ k, 0 < k → k < (streamPayloads reads).length →
        ((streamPayloads reads).take k).flatten ≠ thinking) →
      slotText
        (onSendQA basePath q n st (.response ok contentType reads ending) fallback).messages
        (st.messages.length + 1) = some (.str (streamPayloads reads).flatten)) := by
  have hsil : ¬ streamSilent reads = true := by
    rw [streamSilent_eq, (streamPayloads_ne_nil_iff reads).mp hany]
    simp
  have hmsgs : (onSendQA basePath q n st (.response ok contentType reads ending)
      fallback).messages
      = st.messages ++ [textMsg "user" q,
          (streamPayloads reads).foldl (fun x p => applyPayload p x)
            (textMsg "assistant" thinking),
          actionsMsg n] := by
    rw [onSendQA_sse _ _ _ _ _ _ _ _ _ hsse hend, if_neg hsil]
    simp [appendActions, messagesAfterStream_eq]
  refine ⟨?_, hmsgs, ?_⟩
  · rw [onSendQA_sse _ _ _ _ _ _ _ _ _ hsse hend, if_neg hsil]
    have hreq : (beginTurn q st).requests = st.requests := rfl
    simp [appendActions, hreq]
  · intro hfree
    rw [hmsgs]
    have hslot := slotText_turn_slot st.messages (textMsg "user" q)
      ((streamPayloads reads).foldl (fun x p => applyPayload p x)
        (textMsg "assistant" thinking)) [actionsMsg n]
    rw [show st.messages ++ [textMsg "user" q,
          (streamPayloads reads).foldl (fun x p => applyPayload p x)
            (textMsg "assistant" thinking), actionsMsg n]
        = st.messages ++ [textMsg "user" q,
          (streamPayloads reads).foldl (fun x p => applyPayload p x)
            (textMsg "assistant" thinking)] ++ [actionsMsg n] by simp, hslot]
    cases hps : streamPayloads reads with
    | nil => exact absurd hps hany
    | cons p ps =>
      apply payloads_concat_of_no_collision p ps (textMsg "assistant" thinking) rfl
      intro k hk
      have := hfree (k + 1) (by omega) (by rw [hps]; simpa using hk)
      rw [hps] at this
      simpa using this

/-- An instance of `streamed_text_kept`: the sample stream ends the turn with
the concatenation `안녕` of its two payloads in the slot and no fallback
request. -/
theorem streamed_text_kept_sample :
    (onSendQA "/docs".toList "q".toList 1 initialChatState
        (.response true eventStreamType sampleReads .closed) (.response (some answer42))).requests
      = [.getStream "/docs".toList "q".toList] ∧
    slotText
      (onSendQA "/docs".toList "q".toList 1 initialChatState
        (.response true eventStreamType sampleReads .closed) (.response (some answer42))).messages
      2 = some (.str "안녕".toList) :=
  have h := streamed_text_kept "/docs".toList "q".toList 1 initialChatState true
    eventStreamType sampleReads .closed (.response (some answer42)) (by decide) (by decide)
    (by decide)
  ⟨h.1, (h.2.2 (by
    intro k hk0 hk
    have hlen : (streamPayloads sampleReads).length = 2 := by decide
    have hk1 : k = 1 := by omega
    subst hk1
    decide)).trans rfl⟩

/-- C6, at the failing input: the event stream delivers the two non-empty
payloads `생각 중…` and `x` and closes. The fallback decision is as claimed, no
`POST /qa` request is issued and the fallback answer `42` is not used; but the
slot at the end of the turn is `x`, not the accumulated payload text
`생각 중…x`, the second payload having replaced the first. -/
theorem streamed_text_lost_at_end_of_turn :
    streamPayloads [collidingStream] = ["생각 중…".toList, "x".toList] ∧
    (onSendQA "/docs".toList "q".toList 1 initialChatState
        (.response true eventStreamType [collidingStream] .closed)
        (.response (some answer42))).requests = [.getStream "/docs".toList "q".toList] ∧
    slotText
      (onSendQA "/docs".toList "q".toList 1 initialChatState
        (.response true eventStreamType [collidingStream] .closed)
        (.response (some answer42))).messages 2 = some (.str "x".toList) ∧
    ¬ (slotText
      (onSendQA "/docs".toList "q".toList 1 initialChatState
        (.response true eventStreamType [collidingStream] .closed)
        (.response (some answer42))).messages 2
      = some (.str (streamPayloads [collidingStream]).flatten)) := by
  have hslot : slotText
      (onSendQA "/docs".toList "q".toList 1 initialChatState
        (.response true eventStreamType [collidingStream] .closed)
        (.response (some answer42))).messages 2 = some (.str "x".toList) := rfl
  refine ⟨by decide, by decide, hslot, ?_⟩
  rw [hslot]
  intro hcontra
  have h2 : "x".toList = (streamPayloads [collidingStream]).flatten := by
    injection hcontra with h1
    injection h1
  exact absurd h2 (by decide)

end Odin
